import Mathlib

/-!
# PIC12F683 pair of dice: the charlieplex driver and the walking-light loop

A shallow embedding of `main.c`.  Every `unsigned char` is a natural number,
with `% 256` written where the C arithmetic can leave the byte range
(`--x`, `<<= 1`, `~`).  A read of `GPIO` returns the output latch.
`CLRWDT()` has no effect on any modelled register (the watchdog is disabled
by the configuration word) and is left out.
-/

namespace PairOfDice

/-! ## Data model -/

/-- The globals of `main.c`, the function-static `State` of `LED_refresh`, and
the special function registers the program stores to. -/
structure MCU where
  gLEDs : Nat
  gTRISIO : Nat
  gTMR0_MSB : Nat
  gPause : Nat
  State : Nat
  TRISIO : Nat
  GPIO : Nat
  INTCON : Nat
  OPTION_REG : Nat
  ANSEL : Nat
  CMCON0 : Nat
  deriving DecidableEq, Repr

/-- The locations `LED_refresh` stores to after its `switch`. -/
inductive Loc where
  | gTRISIO
  | TRISIO
  | GPIO
  deriving DecidableEq, Repr

/-- A store that has been executed: the location stored to and the machine
state right after the store. -/
structure Store where
  loc : Loc
  post : MCU
  deriving DecidableEq, Repr

/-- An execution in progress: the current machine state and the stores done so
far, oldest first. -/
structure Run where
  cur : MCU
  log : List Store
  deriving DecidableEq, Repr

/-- Statement `gTRISIO = v;`. -/
def Run.set_gTRISIO (r : Run) (v : Nat) : Run :=
  let s := { r.cur with gTRISIO := v }
  { cur := s, log := r.log ++ [{ loc := Loc.gTRISIO, post := s }] }

/-- Statement `TRISIO = v;`. -/
def Run.set_TRISIO (r : Run) (v : Nat) : Run :=
  let s := { r.cur with TRISIO := v }
  { cur := s, log := r.log ++ [{ loc := Loc.TRISIO, post := s }] }

/-- Statement `GPIO = v;`. -/
def Run.set_GPIO (r : Run) (v : Nat) : Run :=
  let s := { r.cur with GPIO := v }
  { cur := s, log := r.log ++ [{ loc := Loc.GPIO, post := s }] }

/-! ## Constants -/

/-- `#define MAX_LED_STATES (8)`. -/
def MAX_LED_STATES : Nat := 8

/-- `#define LED_STEP_DELAY (64u)`. -/
def LED_STEP_DELAY : Nat := 64

/-- The C expression `~x` for an `int` operand `x`, converted to
`unsigned char`: the two's complement `-x - 1` reduced modulo 256. -/
def not8 (x : Nat) : Nat := ((-(x : Int) - 1) % 256).toNat

/-- Pre-decrement of an `unsigned char`: `--x` wraps from 0 to 255. -/
def dec8 (x : Nat) : Nat := (x + 255) % 256

/-! ## `LED_refresh` -/

/-- The locals of `LED_refresh` after the `switch`, with the new value of the
static `State`. -/
structure Sel where
  OutBits : Nat
  HighBits : Nat
  State : Nat
  deriving DecidableEq, Repr

/-- The `switch (--State)` of `LED_refresh`; the argument `State` is the
already decremented value.  `OutBits` and `HighBits` start at 0. -/
def LED_switch (gLEDs State : Nat) : Sel :=
  match State with
  | 7 =>
    if gLEDs &&& 0x80 ≠ 0 then
      { HighBits := 0 ||| (1 <<< 5), OutBits := not8 ((1 <<< 5) ||| (1 <<< 2)), State := State }
    else { HighBits := 0, OutBits := 0, State := State }
  | 6 =>
    if gLEDs &&& 0x40 ≠ 0 then
      { HighBits := 0 ||| (1 <<< 2), OutBits := not8 ((1 <<< 5) ||| (1 <<< 2)), State := State }
    else { HighBits := 0, OutBits := 0, State := State }
  | 5 =>
    if gLEDs &&& 0x20 ≠ 0 then
      { HighBits := 0 ||| (1 <<< 4), OutBits := not8 ((1 <<< 5) ||| (1 <<< 4)), State := State }
    else { HighBits := 0, OutBits := 0, State := State }
  | 4 =>
    if gLEDs &&& 0x10 ≠ 0 then
      { HighBits := 0 ||| (1 <<< 1), OutBits := not8 ((1 <<< 1) ||| (1 <<< 2)), State := State }
    else { HighBits := 0, OutBits := 0, State := State }
  | 3 =>
    if gLEDs &&& 0x08 ≠ 0 then
      { HighBits := 0 ||| (1 <<< 5), OutBits := not8 ((1 <<< 5) ||| (1 <<< 4)), State := State }
    else { HighBits := 0, OutBits := 0, State := State }
  | 2 =>
    if gLEDs &&& 0x04 ≠ 0 then
      { HighBits := 0 ||| (1 <<< 2), OutBits := not8 ((1 <<< 4) ||| (1 <<< 2)), State := State }
    else { HighBits := 0, OutBits := 0, State := State }
  | 1 =>
    if gLEDs &&& 0x02 ≠ 0 then
      { HighBits := 0 ||| (1 <<< 4), OutBits := not8 ((1 <<< 4) ||| (1 <<< 2)), State := State }
    else { HighBits := 0, OutBits := 0, State := State }
  | _ =>
    if gLEDs &&& 0x01 ≠ 0 then
      { HighBits := 0 ||| (1 <<< 2), OutBits := not8 ((1 <<< 1) ||| (1 <<< 2)),
        State := MAX_LED_STATES }
    else { HighBits := 0, OutBits := 0, State := MAX_LED_STATES }

/-- The statements of `LED_refresh` after the `switch` (lines 214 to 222),
run from `r` with the locals `OutBits` and `HighBits`. -/
def LED_drive (OutBits HighBits : Nat) (r : Run) : Run :=
  let r := r.set_gTRISIO (r.cur.gTRISIO ||| ((1 <<< 5) ||| (1 <<< 4) ||| (1 <<< 2) ||| (1 <<< 1)))
  let r := r.set_TRISIO r.cur.gTRISIO
  if OutBits ≠ 0 then
    let r := r.set_GPIO (r.cur.GPIO &&& OutBits)
    let r := r.set_gTRISIO (r.cur.gTRISIO &&& OutBits)
    let r := r.set_TRISIO r.cur.gTRISIO
    r.set_GPIO (r.cur.GPIO ||| HighBits)
  else r

/-- One call of `LED_refresh` from state `s`, with the log of its stores. -/
def LED_refresh_run (s : MCU) : Run :=
  let sel := LED_switch s.gLEDs (dec8 s.State)
  LED_drive sel.OutBits sel.HighBits { cur := { s with State := sel.State }, log := [] }

/-- The state in which `LED_refresh` returns. -/
def LED_refresh (s : MCU) : MCU := (LED_refresh_run s).cur

/-- The states right after each store of a call to a hardware register
(`TRISIO` or `GPIO`), in program order. -/
def regWrites (s : MCU) : List Store :=
  (LED_refresh_run s).log.filter (fun w => w.loc ≠ Loc.gTRISIO)

/-- The phase a call of `LED_refresh` services when the static `State` holds
`State` on entry: the `case` label taken by `switch (--State)`, the `default`
branch being phase 0. -/
def servicedPhase (State : Nat) : Nat :=
  match dec8 State with
  | 7 => 7
  | 6 => 6
  | 5 => 5
  | 4 => 4
  | 3 => 3
  | 2 => 2
  | 1 => 1
  | _ => 0

/-- The value the static `State` holds when a call entered with `State`
returns: the decremented value in the `case` branches, `MAX_LED_STATES` after
the `default` branch. -/
def nextState (State : Nat) : Nat := (LED_switch 0 (dec8 State)).State

/-- `n` calls of `LED_refresh` in a row, the mask `gLEDs` being overwritten
with the next element of `masks` before each call. -/
def refreshCalls (masks : List Nat) (s : MCU) : MCU :=
  masks.foldl (fun s m => LED_refresh { s with gLEDs := m }) s

/-! ## Wiring -/

/-- The bit numbers in `GPIO`/`TRISIO` of the four lines shared by the LEDs:
GP1, GP2, GP4 and GP5 (DRV1, DRV2, DRV4, DRV5 of the schematic). -/
def sharedLines : List Nat := [1, 2, 4, 5]

/-- The wiring contract: the line driven high for the LED of phase `p`. -/
def highLine : Nat → Nat
  | 7 => 5
  | 6 => 2
  | 5 => 4
  | 4 => 1
  | 3 => 5
  | 2 => 2
  | 1 => 4
  | _ => 2

/-- The wiring contract: the line driven low for the LED of phase `p`. -/
def lowLine : Nat → Nat
  | 7 => 2
  | 6 => 5
  | 5 => 5
  | 4 => 2
  | 3 => 4
  | 2 => 4
  | 1 => 2
  | _ => 1

/-- The byte with every bit set except those of the two lines of phase `p`. -/
def pairMask (p : Nat) : Nat := 255 - 2 ^ highLine p - 2 ^ lowLine p

/-- Number of shared lines configured as outputs (direction bit 0) by the
direction register value `tris`. -/
def outputCount (tris : Nat) : Nat :=
  (sharedLines.filter (fun l => !tris.testBit l)).length

/-- Number of shared lines that are outputs in state `s`, by its `TRISIO`. -/
def outputLines (s : MCU) : Nat := outputCount s.TRISIO

/-- LED position `i` conducts: both lines of its pair are outputs, the latch
of its high line holds 1 and the latch of its low line holds 0. -/
def conducts (i : Nat) (s : MCU) : Bool :=
  !s.TRISIO.testBit (highLine i) && !s.TRISIO.testBit (lowLine i) &&
    s.GPIO.testBit (highLine i) && !s.GPIO.testBit (lowLine i)

/-- Number of LED positions 0..7 that conduct in state `s`. -/
def conductingCount (s : MCU) : Nat :=
  ((List.range 8).filter (fun i => conducts i s)).length

/-- What `PIC_Init` leaves in the port registers (lines 250 to 252): every
line an input, the latch cleared. -/
def PostInit (s : MCU) : Prop :=
  s.GPIO = 0 ∧ s.gTRISIO = 0b11111111 ∧ s.TRISIO = 0b11111111

instance (s : MCU) : Decidable (PostInit s) := by
  unfold PostInit
  infer_instance

/-- A state in which `PIC_Init` returns when started from zero-initialised
globals: the registers hold what lines 229 to 252 store, `gPause` has counted
down to 0, the last timer sample was 0 and `State` holds its initialiser. -/
def afterInit : MCU :=
  { gLEDs := 0, gTRISIO := 0b11111111, gTMR0_MSB := 0, gPause := 0, State := MAX_LED_STATES,
    TRISIO := 0b11111111, GPIO := 0, INTCON := 0, OPTION_REG := 0b11010101, ANSEL := 0,
    CMCON0 := 0x07 }

/-! ## The process loop of `main` -/

/-- The mask update of lines 274 to 278: `gLEDs <<= 1; if(!gLEDs) gLEDs = 1;`. -/
def maskStep (gLEDs : Nat) : Nat :=
  let gLEDs := (gLEDs <<< 1) % 256
  if gLEDs = 0 then 1 else gLEDs

/-- One iteration of the `for(;;)` loop of `main`.  `TMR0` is read twice in
the source, by the test of line 269 and by the assignment of line 271:
`smp.1` is the value the test reads, `smp.2` the value the assignment reads. -/
def main_iter (smp : Nat × Nat) (s : MCU) : MCU :=
  let s := LED_refresh s
  if (smp.1 ^^^ s.gTMR0_MSB) &&& 0x80 ≠ 0 then
    let s := { s with gTMR0_MSB := smp.2 }
    let s := { s with gPause := dec8 s.gPause }
    if s.gPause = 0 then
      let s := { s with gLEDs := maskStep s.gLEDs }
      { s with gPause := LED_STEP_DELAY }
    else s
  else s

/-- The loop of `main` run for one iteration per element of `samples`. -/
def main_loop (samples : List (Nat × Nat)) (s : MCU) : MCU :=
  samples.foldl (fun s smp => main_iter smp s) s

/-- An iteration started in state `s` observes a toggle: bit 7 of the sample
its test reads differs from bit 7 of `gTMR0_MSB`. -/
def observesToggle (smp : Nat × Nat) (s : MCU) : Bool :=
  smp.1.testBit 7 != s.gTMR0_MSB.testBit 7

/-- The step delay expires in the iteration started in state `s`: the
iteration observes a toggle and `--gPause` reaches 0. -/
def expires (smp : Nat × Nat) (s : MCU) : Bool :=
  observesToggle smp s && dec8 s.gPause == 0

/-- Number of iterations of `main_loop samples s` that observe a toggle. -/
def toggleCount : List (Nat × Nat) → MCU → Nat
  | [], _ => 0
  | smp :: rest, s => (if observesToggle smp s then 1 else 0) + toggleCount rest (main_iter smp s)

/-- Number of iterations of `main_loop samples s` in which the step delay
expires. -/
def expiryCount : List (Nat × Nat) → MCU → Nat
  | [], _ => 0
  | smp :: rest, s => (if expires smp s then 1 else 0) + expiryCount rest (main_iter smp s)

/-- The state at entry to the loop of `main` after `PIC_Init` has returned in
`afterInit`: line 264 stores a timer sample (here 0) and line 265 stores
`LED_STEP_DELAY`. -/
def loopEntry : MCU := { afterInit with gTMR0_MSB := 0, gPause := LED_STEP_DELAY }

/-- Timer samples for `n` iterations whose bit 7 alternates, starting at 1:
from `loopEntry` every iteration observes a toggle. -/
def squareWave (n : Nat) : List (Nat × Nat) :=
  (List.range n).map (fun i => if i % 2 = 0 then (0x80, 0x80) else (0x00, 0x00))

/-! ## Start-up: `POR_DELAY` and `PIC_Init` -/

/-- `#define FSYS (4000000ul)`. -/
def FSYS : Nat := 4000000

/-- `#define FCYC (FSYS/4ul)`. -/
def FCYC : Nat := FSYS / 4

/-- `#define TIMER0_COUNTS_UNTIL_ASSERT (128ul)`. -/
def TIMER0_COUNTS_UNTIL_ASSERT : Nat := 128

/-- `#define TIMER0_PRESCALE (64ul)`. -/
def TIMER0_PRESCALE : Nat := 64

/-- `#define TIMER0_ASSERTS_IN_ONE_SECOND (2ul)`. -/
def TIMER0_ASSERTS_IN_ONE_SECOND : Nat := 2

/-- The build-time check of lines 103 to 111 applied to the value `raw` of the
first definition of `POR_DELAY`. -/
def POR_DELAY_check (raw : Nat) : Nat :=
  if raw ≥ 256 then 255
  else if raw < 1 then 1
  else raw

/-- The macro `POR_DELAY` after the build-time check, for the constants of
the source. -/
def POR_DELAY : Nat :=
  POR_DELAY_check
    (FCYC / (TIMER0_ASSERTS_IN_ONE_SECOND * TIMER0_COUNTS_UNTIL_ASSERT * TIMER0_PRESCALE))

/-- The divisor of line 99,
`TIMER0_ASSERTS_IN_ONE_SECOND * TIMER0_COUNTS_UNTIL_ASSERT * TIMER0_PRESCALE`,
for other values of the constants, as the build-time check evaluates it: the
constants carry the suffix `ul`, so each product is taken in unsigned
arithmetic of `w` bits and wraps modulo `2 ^ w`.  The width `w` is not fixed by
the source and is a parameter. -/
def POR_divisor (w asserts counts prescale : Nat) : Nat :=
  (asserts * counts % 2 ^ w) * prescale % 2 ^ w

/-- The macro `POR_DELAY` after the build-time check for other values of the
four configuration constants (lines 93 to 111), in unsigned arithmetic of `w`
bits.  A divisor that evaluates to 0 makes the expression of line 103 fail: no
value. -/
def POR_DELAY_of (w fsys asserts counts prescale : Nat) : Option Nat :=
  if POR_divisor w asserts counts prescale = 0 then none
  else some (POR_DELAY_check (fsys / 4 / POR_divisor w asserts counts prescale))

/-- The wait loop of `PIC_Init` (lines 236 to 244), entered after `gPause`
has been set.  Each element of `samples` holds the two reads of `TMR0` of one
pass (the test of line 239, the assignment of line 241).  The result is `none`
when the samples are used up before `gPause` reaches 0. -/
def POR_wait : List (Nat × Nat) → MCU → Option MCU
  | [], s => if s.gPause ≠ 0 then none else some s
  | smp :: rest, s =>
    if s.gPause ≠ 0 then
      if (smp.1 ^^^ s.gTMR0_MSB) &&& 0x80 ≠ 0 then
        let s := { s with gTMR0_MSB := smp.2 }
        let s := { s with gPause := dec8 s.gPause }
        POR_wait rest s
      else POR_wait rest s
    else some s

/-- The function `PIC_Init`: `t0` is the value of `TMR0` read by line 235,
`samples` the reads of the wait loop. -/
def PIC_Init (t0 : Nat) (samples : List (Nat × Nat)) (s : MCU) : Option MCU :=
  let s := { s with INTCON := 0 }
  let s := { s with OPTION_REG := 0b11010101 }
  let s := { s with gTMR0_MSB := t0 }
  let s := { s with gPause := POR_DELAY }
  match POR_wait samples s with
  | none => none
  | some s =>
    let s := { s with ANSEL := 0 }
    let s := { s with CMCON0 := 0x07 }
    let s := { s with GPIO := 0 }
    let s := { s with gTRISIO := 0b11111111 }
    some { s with TRISIO := s.gTRISIO }

/-- Number of toggles of bit 7 the wait loop observes in `samples` when the
last stored sample is `msb`. -/
def waitToggles : Nat → List (Nat × Nat) → Nat
  | _, [] => 0
  | msb, smp :: rest =>
    if (smp.1.testBit 7 != msb.testBit 7) = true then 1 + waitToggles smp.2 rest
    else waitToggles msb rest

/-- The state at entry to `main`: globals zero-initialised, `State` at its
initialiser, the registers here all 0. -/
def atReset : MCU :=
  { gLEDs := 0, gTRISIO := 0, gTMR0_MSB := 0, gPause := 0, State := MAX_LED_STATES,
    TRISIO := 0, GPIO := 0, INTCON := 0, OPTION_REG := 0, ANSEL := 0, CMCON0 := 0 }

/-! ## Register writes of consecutive calls -/

/-- The stores of one call of `LED_refresh` to the hardware registers, in
program order: the register stored to and the value written. -/
def writesOf (s : MCU) : List (Loc × Nat) :=
  (regWrites s).map (fun w =>
    match w.loc with
    | Loc.GPIO => (Loc.GPIO, w.post.GPIO)
    | _ => (Loc.TRISIO, w.post.TRISIO))

/-- The stores to the hardware registers of `n` consecutive calls of
`LED_refresh` started in state `s`, the mask being left as it is. -/
def callsWrites : Nat → MCU → List (Loc × Nat)
  | 0, _ => []
  | n + 1, s => writesOf s ++ callsWrites n (LED_refresh s)

/-- A write with the value hidden when the write is to `GPIO`: what remains is
the position of the write and, for `TRISIO`, the value. -/
def hideLatch (w : Loc × Nat) : Loc × Nat :=
  match w.1 with
  | Loc.GPIO => (Loc.GPIO, 0)
  | _ => w

/-- An 8-bit mask with at most one bit set: 0 or `1 << k` for a `k` in
0..7. -/
def atMostOneBit (m : Nat) : Prop := m = 0 ∨ ∃ k, k < 8 ∧ m = 1 <<< k

/-- Two states drive alike: same mask, same phase counter, and shadows that
agree once the four shared-line bits are set. -/
def SameDrive (s s' : MCU) : Prop :=
  s.gLEDs = s'.gLEDs ∧ s.State = s'.State ∧ s.gTRISIO ||| 0x36 = s'.gTRISIO ||| 0x36

/-- Two states hold the same `GPIO` latch. -/
def SameLatch (s s' : MCU) : Prop := s.GPIO = s'.GPIO

/-- Two states hold latches that agree outside the two lines of phase `k`. -/
def SameLatchOutside (k : Nat) (s s' : MCU) : Prop :=
  s.GPIO &&& pairMask k = s'.GPIO &&& pairMask k

/-- Bit `i` of the `GPIO` latch of state `s`. -/
def latchBit (s : MCU) (i : Nat) : Bool := s.GPIO.testBit i

/-! ## Reference functions of the specification -/

/-- The start-up delay as the specification words it: the raw quotient
`FCYC / (TIMER0_ASSERTS_IN_ONE_SECOND * TIMER0_COUNTS_UNTIL_ASSERT *
TIMER0_PRESCALE)` with `FCYC = FSYS / 4`, on integers without wrap-around, kept
when it lies in 1..255, replaced by 255 when it is 256 or more and by 1 when it
is below 1. -/
def specPOR_DELAY (fsys asserts counts prescale : Nat) : Nat :=
  if 256 ≤ fsys / 4 / (asserts * counts * prescale) then 255
  else if fsys / 4 / (asserts * counts * prescale) < 1 then 1
  else fsys / 4 / (asserts * counts * prescale)

theorem and_two_pow_ne_zero (x p : Nat) : x &&& 2 ^ p ≠ 0 ↔ x.testBit p = true := by
  constructor
  · intro h
    by_contra hb
    apply h
    apply Nat.eq_of_testBit_eq
    intro i
    simp only [Nat.testBit_and, Nat.zero_testBit, Nat.testBit_two_pow]
    by_cases hi : p = i
    · subst hi; simp [hb]
    · simp [hi]
  · intro hb h
    have : (x &&& 2 ^ p).testBit p = true := by
      simp [Nat.testBit_and, Nat.testBit_two_pow, hb]
    rw [h] at this
    simp at this

theorem not8_eval :
    not8 ((1 <<< 5) ||| (1 <<< 2)) = 0xDB ∧ not8 ((1 <<< 5) ||| (1 <<< 4)) = 0xCF ∧
    not8 ((1 <<< 1) ||| (1 <<< 2)) = 0xF9 ∧ not8 ((1 <<< 4) ||| (1 <<< 2)) = 0xEB := by
  decide

/-! ## The `switch` -/

theorem servicedPhase_le (S : Nat) : servicedPhase S ≤ 7 := by
  unfold servicedPhase
  split <;> omega

theorem servicedPhase_succ (p : Nat) (hp : p < 8) : servicedPhase (p + 1) = p := by
  interval_cases p <;> rfl

theorem LED_switch_eq (g S : Nat) :
    LED_switch g (dec8 S) =
      if g.testBit (servicedPhase S) = true then
        { OutBits := pairMask (servicedPhase S),
          HighBits := 2 ^ highLine (servicedPhase S),
          State := if 1 ≤ dec8 S ∧ dec8 S ≤ 7 then dec8 S else 8 }
      else
        { OutBits := 0, HighBits := 0,
          State := if 1 ≤ dec8 S ∧ dec8 S ≤ 7 then dec8 S else 8 } := by
  have h7 : g &&& 0x80 ≠ 0 ↔ g.testBit 7 = true := and_two_pow_ne_zero g 7
  have h6 : g &&& 0x40 ≠ 0 ↔ g.testBit 6 = true := and_two_pow_ne_zero g 6
  have h5 : g &&& 0x20 ≠ 0 ↔ g.testBit 5 = true := and_two_pow_ne_zero g 5
  have h4 : g &&& 0x10 ≠ 0 ↔ g.testBit 4 = true := and_two_pow_ne_zero g 4
  have h3 : g &&& 0x08 ≠ 0 ↔ g.testBit 3 = true := and_two_pow_ne_zero g 3
  have h2 : g &&& 0x04 ≠ 0 ↔ g.testBit 2 = true := and_two_pow_ne_zero g 2
  have h1 : g &&& 0x02 ≠ 0 ↔ g.testBit 1 = true := and_two_pow_ne_zero g 1
  have h0 : g &&& 0x01 ≠ 0 ↔ g.testBit 0 = true := and_two_pow_ne_zero g 0
  obtain ⟨e1, e2, e3, e4⟩ := not8_eval
  unfold LED_switch servicedPhase pairMask
  split
  case h_8 hn7 hn6 hn5 hn4 hn3 hn2 hn1 =>
    have hc : ¬ (1 ≤ dec8 S ∧ dec8 S ≤ 7) := by
      rintro ⟨ha, hb⟩
      interval_cases h : dec8 S <;> simp_all
    simp only [h0, hc, e3, if_false, highLine, lowLine, MAX_LED_STATES]
    split <;> rfl
  all_goals
    rename_i hq
    simp only [h7, h6, h5, h4, h3, h2, h1, hq, e1, e2, e3, e4, highLine, lowLine]
    split <;> rfl

theorem nextState_eq (S : Nat) :
    nextState S = if 1 ≤ dec8 S ∧ dec8 S ≤ 7 then dec8 S else 8 := by
  unfold nextState
  rw [LED_switch_eq]
  split <;> rfl

theorem pairMask_ne_zero (S : Nat) : pairMask (servicedPhase S) ≠ 0 := by
  have h := servicedPhase_le S
  generalize servicedPhase S = p at h
  interval_cases p <;> decide

/-! ## The drive sequence -/

theorem LED_drive_on (O H : Nat) (r : Run) (h : O ≠ 0) :
    LED_drive O H r =
      { cur := { r.cur with gTRISIO := (r.cur.gTRISIO ||| 0x36) &&& O,
                            TRISIO := (r.cur.gTRISIO ||| 0x36) &&& O,
                            GPIO := (r.cur.GPIO &&& O) ||| H },
        log := r.log ++
          [ { loc := Loc.gTRISIO, post := { r.cur with gTRISIO := r.cur.gTRISIO ||| 0x36 } },
            { loc := Loc.TRISIO, post := { r.cur with gTRISIO := r.cur.gTRISIO ||| 0x36,
                                                      TRISIO := r.cur.gTRISIO ||| 0x36 } },
            { loc := Loc.GPIO, post := { r.cur with gTRISIO := r.cur.gTRISIO ||| 0x36,
                                                    TRISIO := r.cur.gTRISIO ||| 0x36,
                                                    GPIO := r.cur.GPIO &&& O } },
            { loc := Loc.gTRISIO, post := { r.cur with gTRISIO := (r.cur.gTRISIO ||| 0x36) &&& O,
                                                       TRISIO := r.cur.gTRISIO ||| 0x36,
                                                       GPIO := r.cur.GPIO &&& O } },
            { loc := Loc.TRISIO, post := { r.cur with gTRISIO := (r.cur.gTRISIO ||| 0x36) &&& O,
                                                      TRISIO := (r.cur.gTRISIO ||| 0x36) &&& O,
                                                      GPIO := r.cur.GPIO &&& O } },
            { loc := Loc.GPIO, post := { r.cur with gTRISIO := (r.cur.gTRISIO ||| 0x36) &&& O,
                                                    TRISIO := (r.cur.gTRISIO ||| 0x36) &&& O,
                                                    GPIO := (r.cur.GPIO &&& O) ||| H } } ] } := by
  simp [LED_drive, h, Run.set_gTRISIO, Run.set_TRISIO, Run.set_GPIO]

theorem LED_drive_off (H : Nat) (r : Run) :
    LED_drive 0 H r =
      { cur := { r.cur with gTRISIO := r.cur.gTRISIO ||| 0x36,
                            TRISIO := r.cur.gTRISIO ||| 0x36 },
        log := r.log ++
          [ { loc := Loc.gTRISIO, post := { r.cur with gTRISIO := r.cur.gTRISIO ||| 0x36 } },
            { loc := Loc.TRISIO, post := { r.cur with gTRISIO := r.cur.gTRISIO ||| 0x36,
                                                      TRISIO := r.cur.gTRISIO ||| 0x36 } } ] } := by
  simp [LED_drive, Run.set_gTRISIO, Run.set_TRISIO]

theorem LED_refresh_run_lit (s : MCU) (h : s.gLEDs.testBit (servicedPhase s.State) = true) :
    LED_refresh_run s =
      LED_drive (pairMask (servicedPhase s.State)) (2 ^ highLine (servicedPhase s.State))
        { cur := { s with State := nextState s.State }, log := [] } := by
  simp only [LED_refresh_run, LED_switch_eq, h, if_true, nextState_eq]

theorem LED_refresh_run_dark (s : MCU) (h : s.gLEDs.testBit (servicedPhase s.State) = false) :
    LED_refresh_run s =
      LED_drive 0 0 { cur := { s with State := nextState s.State }, log := [] } := by
  simp [LED_refresh_run, LED_switch_eq, h, nextState_eq]

/-! ## Output counts and the log of a call -/

theorem outputCount_eq (T : Nat) :
    outputCount T =
      (!T.testBit 1).toNat + (!T.testBit 2).toNat + (!T.testBit 4).toNat + (!T.testBit 5).toNat := by
  unfold outputCount sharedLines
  simp only [List.filter_cons, List.filter_nil]
  generalize T.testBit 1 = b1
  generalize T.testBit 2 = b2
  generalize T.testBit 4 = b4
  generalize T.testBit 5 = b5
  revert b1 b2 b4 b5
  decide

theorem outputCount_all_inputs (x : Nat) : outputCount (x ||| 0x36) = 0 := by
  rw [outputCount_eq]
  simp only [Nat.testBit_or]
  generalize x.testBit 1 = b1
  generalize x.testBit 2 = b2
  generalize x.testBit 4 = b4
  generalize x.testBit 5 = b5
  revert b1 b2 b4 b5
  decide

theorem outputCount_pair (x S : Nat) :
    outputCount ((x ||| 0x36) &&& pairMask (servicedPhase S)) = 2 := by
  have h := servicedPhase_le S
  generalize servicedPhase S = p at h
  rw [outputCount_eq]
  simp only [Nat.testBit_or, Nat.testBit_and]
  generalize x.testBit 1 = b1
  generalize x.testBit 2 = b2
  generalize x.testBit 4 = b4
  generalize x.testBit 5 = b5
  revert b1 b2 b4 b5
  interval_cases p <;> decide

theorem conductingCount_le_one (s : MCU) (h : outputCount s.TRISIO ≤ 2) :
    conductingCount s ≤ 1 := by
  have hr : List.range 8 = [0, 1, 2, 3, 4, 5, 6, 7] := by decide
  rw [outputCount_eq] at h
  unfold conductingCount
  rw [hr]
  simp only [List.filter_cons, List.filter_nil, conducts, highLine, lowLine]
  generalize s.TRISIO.testBit 1 = t1 at h ⊢
  generalize s.TRISIO.testBit 2 = t2 at h ⊢
  generalize s.TRISIO.testBit 4 = t4 at h ⊢
  generalize s.TRISIO.testBit 5 = t5 at h ⊢
  generalize s.GPIO.testBit 1 = g1
  generalize s.GPIO.testBit 2 = g2
  generalize s.GPIO.testBit 4 = g4
  generalize s.GPIO.testBit 5 = g5
  revert t1 t2 t4 t5 g1 g2 g4 g5
  decide


theorem LED_refresh_outputCount (s : MCU) :
    outputLines (LED_refresh s) = 0 ∨ outputLines (LED_refresh s) = 2 := by
  unfold outputLines
  by_cases hb : s.gLEDs.testBit (servicedPhase s.State) = true
  · right
    rw [LED_refresh, LED_refresh_run_lit s hb, LED_drive_on _ _ _ (pairMask_ne_zero _)]
    exact outputCount_pair _ _
  · left
    rw [LED_refresh, LED_refresh_run_dark s (by simpa using hb), LED_drive_off]
    exact outputCount_all_inputs _

theorem log_outputCount (s : MCU) (w : Store) (hw : w ∈ (LED_refresh_run s).log) :
    outputCount w.post.TRISIO = outputCount s.TRISIO ∨ outputCount w.post.TRISIO = 0 ∨
      outputCount w.post.TRISIO = 2 := by
  by_cases hb : s.gLEDs.testBit (servicedPhase s.State) = true
  · rw [LED_refresh_run_lit s hb, LED_drive_on _ _ _ (pairMask_ne_zero _)] at hw
    simp only [List.nil_append, List.mem_cons, List.mem_singleton, List.not_mem_nil,
      or_false] at hw
    rcases hw with h | h | h | h | h | h <;> subst h <;>
      simp [outputCount_all_inputs, outputCount_pair]
  · rw [LED_refresh_run_dark s (by simpa using hb), LED_drive_off] at hw
    simp only [List.nil_append, List.mem_cons, List.mem_singleton, List.not_mem_nil,
      or_false] at hw
    rcases hw with h | h <;> subst h <;> simp [outputCount_all_inputs]

theorem refreshCalls_cons (m : Nat) (rest : List Nat) (s : MCU) :
    refreshCalls (m :: rest) s = refreshCalls rest (LED_refresh { s with gLEDs := m }) := rfl

theorem refreshCalls_append (xs ys : List Nat) (s : MCU) :
    refreshCalls (xs ++ ys) s = refreshCalls ys (refreshCalls xs s) := by
  simp [refreshCalls, List.foldl_append]

theorem refreshCalls_outputCount (masks : List Nat) (s : MCU) (h : outputLines s ≤ 2) :
    outputLines (refreshCalls masks s) ≤ 2 := by
  induction masks generalizing s with
  | nil => exact h
  | cons m rest ih =>
    rw [refreshCalls_cons]
    apply ih
    rcases LED_refresh_outputCount { s with gLEDs := m } with h' | h' <;> omega

theorem sharedLines_bits_or (x : Nat) : ∀ l ∈ sharedLines, (x ||| 0x36).testBit l = true := by
  simp +decide [sharedLines]

theorem regWrites_head (s : MCU) :
    ∃ rest, regWrites s =
      { loc := Loc.TRISIO,
        post := { s with State := nextState s.State, gTRISIO := s.gTRISIO ||| 0x36,
                         TRISIO := s.gTRISIO ||| 0x36 } } :: rest := by
  by_cases hb : s.gLEDs.testBit (servicedPhase s.State) = true
  · rw [regWrites, LED_refresh_run_lit s hb, LED_drive_on _ _ _ (pairMask_ne_zero _)]
    simp [List.filter]
  · rw [regWrites, LED_refresh_run_dark s (by simpa using hb), LED_drive_off]
    simp [List.filter]

/-! ## The phase counter -/

theorem LED_refresh_State (s : MCU) : (LED_refresh s).State = nextState s.State := by
  by_cases hb : s.gLEDs.testBit (servicedPhase s.State) = true
  · rw [LED_refresh, LED_refresh_run_lit s hb, LED_drive_on _ _ _ (pairMask_ne_zero _)]
  · rw [LED_refresh, LED_refresh_run_dark s (by simpa using hb), LED_drive_off]

theorem LED_refresh_frame (s : MCU) :
    (LED_refresh s).gLEDs = s.gLEDs ∧ (LED_refresh s).gPause = s.gPause ∧
      (LED_refresh s).gTMR0_MSB = s.gTMR0_MSB := by
  by_cases hb : s.gLEDs.testBit (servicedPhase s.State) = true
  · rw [LED_refresh, LED_refresh_run_lit s hb, LED_drive_on _ _ _ (pairMask_ne_zero _)]
    exact ⟨rfl, rfl, rfl⟩
  · rw [LED_refresh, LED_refresh_run_dark s (by simpa using hb), LED_drive_off]
    exact ⟨rfl, rfl, rfl⟩

theorem refreshCalls_State (masks : List Nat) (s : MCU) :
    (refreshCalls masks s).State = nextState^[masks.length] s.State := by
  induction masks generalizing s with
  | nil => rfl
  | cons m rest ih =>
    rw [refreshCalls_cons, ih, LED_refresh_State, List.length_cons, Function.iterate_succ_apply]

theorem nextState_iterate_top (n : Nat) : nextState^[n] 8 = 8 - n % 8 := by
  induction n with
  | zero => rfl
  | succ k ih =>
    rw [Function.iterate_succ_apply', ih, nextState_eq]
    unfold dec8
    split <;> omega

theorem nextState_iterate_eight (S : Nat) (h1 : 1 ≤ S) (h8 : S ≤ 8) : nextState^[8] S = S := by
  interval_cases S <;> rfl

theorem servicedPhase_countdown (n : Nat) : servicedPhase (8 - n % 8) = 7 - n % 8 := by
  have h : n % 8 < 8 := Nat.mod_lt _ (by decide)
  generalize n % 8 = r at h
  interval_cases r <;> rfl

/-! ## The mask step and the loop of `main` -/

theorem toggle_test_iff (t msb : Nat) :
    ((t ^^^ msb) &&& 0x80 ≠ 0) ↔ (t.testBit 7 != msb.testBit 7) = true := by
  have h := and_two_pow_ne_zero (t ^^^ msb) 7
  rw [Nat.testBit_xor] at h
  simpa using h

theorem main_loop_cons (smp : Nat × Nat) (rest : List (Nat × Nat)) (s : MCU) :
    main_loop (smp :: rest) s = main_loop rest (main_iter smp s) := rfl

theorem main_iter_gLEDs (smp : Nat × Nat) (s : MCU) :
    (main_iter smp s).gLEDs = if expires smp s = true then maskStep s.gLEDs else s.gLEDs := by
  obtain ⟨hL, hP, hT⟩ := LED_refresh_frame s
  unfold main_iter expires observesToggle
  generalize LED_refresh s = t at hL hP hT
  simp only [toggle_test_iff, hT, hP]
  by_cases ht : (smp.1.testBit 7 != s.gTMR0_MSB.testBit 7) = true
  · by_cases hp : dec8 s.gPause = 0
    · simp [ht, hp, hL]
    · simp [ht, hp, hL]
  · simp [ht, hL]

theorem main_iter_gPause (smp : Nat × Nat) (s : MCU) :
    (main_iter smp s).gPause =
      if observesToggle smp s = true then
        (if dec8 s.gPause = 0 then LED_STEP_DELAY else dec8 s.gPause)
      else s.gPause := by
  obtain ⟨hL, hP, hT⟩ := LED_refresh_frame s
  unfold main_iter observesToggle
  generalize LED_refresh s = t at hL hP hT
  simp only [toggle_test_iff, hT, hP]
  by_cases ht : (smp.1.testBit 7 != s.gTMR0_MSB.testBit 7) = true
  · by_cases hp : dec8 s.gPause = 0
    · simp [ht, hp]
    · simp [ht, hp]
  · simp [ht, hP]

theorem main_loop_gLEDs (samples : List (Nat × Nat)) (s : MCU) :
    (main_loop samples s).gLEDs = maskStep^[expiryCount samples s] s.gLEDs := by
  induction samples generalizing s with
  | nil => rfl
  | cons smp rest ih =>
    rw [main_loop_cons, ih, expiryCount, Nat.add_comm, Function.iterate_add_apply,
      main_iter_gLEDs]
    by_cases he : expires smp s = true <;> simp [he]

theorem main_loop_gPause (samples : List (Nat × Nat)) (s : MCU) (c : Nat)
    (h : s.gPause = 64 - c % 64) :
    (main_loop samples s).gPause = 64 - (c + toggleCount samples s) % 64 := by
  induction samples generalizing s c with
  | nil => simpa [main_loop, toggleCount] using h
  | cons smp rest ih =>
    rw [main_loop_cons, toggleCount]
    by_cases ht : observesToggle smp s = true
    · rw [ih (main_iter smp s) (c + 1)]
      · simp only [ht, if_true]
        congr 2
        omega
      · rw [main_iter_gPause]
        simp only [ht, if_true, h, dec8, LED_STEP_DELAY]
        split <;> omega
    · rw [ih (main_iter smp s) c]
      · simp [ht]
      · rw [main_iter_gPause]
        simp [ht, h]

theorem maskStep_iterate_zero (k : Nat) : maskStep^[k + 1] 0 = 1 <<< (k % 8) := by
  induction k with
  | zero => rfl
  | succ n ih =>
    rw [Function.iterate_succ_apply', ih]
    have h : n % 8 < 8 := Nat.mod_lt _ (by decide)
    have h' : (n + 1) % 8 = if n % 8 = 7 then 0 else n % 8 + 1 := by split <;> omega
    rw [h']
    generalize n % 8 = r at h
    interval_cases r <;> rfl

theorem maskStep_ne_zero (m : Nat) : maskStep m ≠ 0 := by
  unfold maskStep
  simp only
  split
  · decide
  · assumption

/-! ## Frame and schedule facts used by the later claims -/

theorem LED_refresh_eq_lit (s : MCU) (h : s.gLEDs.testBit (servicedPhase s.State) = true) :
    LED_refresh s =
      { s with State := nextState s.State,
               gTRISIO := (s.gTRISIO ||| 0x36) &&& pairMask (servicedPhase s.State),
               TRISIO := (s.gTRISIO ||| 0x36) &&& pairMask (servicedPhase s.State),
               GPIO := (s.GPIO &&& pairMask (servicedPhase s.State)) |||
                 2 ^ highLine (servicedPhase s.State) } := by
  rw [LED_refresh, LED_refresh_run_lit s h, LED_drive_on _ _ _ (pairMask_ne_zero _)]

theorem LED_refresh_eq_dark (s : MCU) (h : s.gLEDs.testBit (servicedPhase s.State) = false) :
    LED_refresh s =
      { s with State := nextState s.State, gTRISIO := s.gTRISIO ||| 0x36,
               TRISIO := s.gTRISIO ||| 0x36 } := by
  rw [LED_refresh, LED_refresh_run_dark s h, LED_drive_off]

theorem main_iter_State (smp : Nat × Nat) (s : MCU) :
    (main_iter smp s).State = nextState s.State := by
  have hS := LED_refresh_State s
  unfold main_iter
  generalize LED_refresh s = t at hS
  simp only
  split
  · split <;> exact hS
  · exact hS

theorem main_iter_gTMR0_MSB (smp : Nat × Nat) (s : MCU) :
    (main_iter smp s).gTMR0_MSB = if observesToggle smp s = true then smp.2 else s.gTMR0_MSB := by
  obtain ⟨hL, hP, hT⟩ := LED_refresh_frame s
  unfold main_iter observesToggle
  generalize LED_refresh s = t at hL hP hT
  simp only [toggle_test_iff, hT, hP]
  by_cases ht : (smp.1.testBit 7 != s.gTMR0_MSB.testBit 7) = true
  · by_cases hp : dec8 s.gPause = 0
    · simp [ht, hp]
    · simp [ht, hp]
  · simp [ht, hT]

theorem main_loop_State (samples : List (Nat × Nat)) (s : MCU) :
    (main_loop samples s).State = nextState^[samples.length] s.State := by
  induction samples generalizing s with
  | nil => rfl
  | cons smp rest ih =>
    rw [main_loop_cons, ih, main_iter_State, List.length_cons, Function.iterate_succ_apply]

theorem main_loop_mask_eq (samples : List (Nat × Nat)) (s s' : MCU)
    (hL : s.gLEDs = s'.gLEDs) (hP : s.gPause = s'.gPause) (hT : s.gTMR0_MSB = s'.gTMR0_MSB) :
    (main_loop samples s).gLEDs = (main_loop samples s').gLEDs := by
  induction samples generalizing s s' with
  | nil => exact hL
  | cons smp rest ih =>
    rw [main_loop_cons, main_loop_cons]
    have he : expires smp s = expires smp s' := by
      simp only [expires, observesToggle, hP, hT]
    have ho : observesToggle smp s = observesToggle smp s' := by
      simp only [observesToggle, hT]
    apply ih
    · rw [main_iter_gLEDs, main_iter_gLEDs, he, hL]
    · rw [main_iter_gPause, main_iter_gPause, ho, hP]
    · rw [main_iter_gTMR0_MSB, main_iter_gTMR0_MSB, ho, hT]

theorem LED_refresh_other_bits (s : MCU) (i : Nat) (hi : i ∈ [0, 3, 6, 7]) :
    let t := LED_refresh s
    t.gTRISIO.testBit i = s.gTRISIO.testBit i ∧ t.TRISIO.testBit i = s.gTRISIO.testBit i ∧
      t.GPIO.testBit i = s.GPIO.testBit i := by
  intro t
  have ht : t = LED_refresh s := rfl
  clear_value t
  by_cases hb : s.gLEDs.testBit (servicedPhase s.State) = true
  · rw [ht, LED_refresh_eq_lit s hb]
    have hp := servicedPhase_le s.State
    generalize servicedPhase s.State = p at hp
    simp only [Nat.testBit_and, Nat.testBit_or]
    generalize s.gTRISIO = T
    generalize s.GPIO = G
    simp only [List.mem_cons, List.mem_singleton, List.not_mem_nil, or_false] at hi
    rcases hi with rfl | rfl | rfl | rfl <;>
      (generalize T.testBit _ = a; generalize G.testBit _ = b; revert a b;
       interval_cases p <;> decide)
  · rw [ht, LED_refresh_eq_dark s (by simpa using hb)]
    simp only [Nat.testBit_or]
    generalize s.gTRISIO = T
    simp only [List.mem_cons, List.mem_singleton, List.not_mem_nil, or_false] at hi
    rcases hi with rfl | rfl | rfl | rfl <;>
      (generalize T.testBit _ = a; revert a; decide)

theorem refreshCalls_button_bits (masks : List Nat) (s : MCU)
    (h0 : s.gTRISIO.testBit 0 = true ∧ s.TRISIO.testBit 0 = true)
    (h3 : s.gTRISIO.testBit 3 = true ∧ s.TRISIO.testBit 3 = true) :
    let t := refreshCalls masks s
    (t.gTRISIO.testBit 0 = true ∧ t.TRISIO.testBit 0 = true) ∧
      (t.gTRISIO.testBit 3 = true ∧ t.TRISIO.testBit 3 = true) := by
  induction masks generalizing s with
  | nil => exact ⟨h0, h3⟩
  | cons m rest ih =>
    rw [refreshCalls_cons]
    have a0 := LED_refresh_other_bits { s with gLEDs := m } 0 (by decide)
    have a3 := LED_refresh_other_bits { s with gLEDs := m } 3 (by decide)
    apply ih
    · exact ⟨a0.1.trans h0.1, a0.2.1.trans h0.1⟩
    · exact ⟨a3.1.trans h3.1, a3.2.1.trans h3.1⟩

theorem pair_bits (p : Nat) (hp : p ≤ 7) (T G : Nat) :
    ((T ||| 0x36) &&& pairMask p).testBit (highLine p) = false ∧
    ((T ||| 0x36) &&& pairMask p).testBit (lowLine p) = false ∧
    (G &&& pairMask p).testBit (highLine p) = false ∧
    (G &&& pairMask p).testBit (lowLine p) = false ∧
    ((G &&& pairMask p) ||| 2 ^ highLine p).testBit (highLine p) = true ∧
    ((G &&& pairMask p) ||| 2 ^ highLine p).testBit (lowLine p) = false := by
  simp only [Nat.testBit_and, Nat.testBit_or]
  interval_cases p <;> simp only [highLine, lowLine] <;>
    (generalize T.testBit _ = a; generalize T.testBit _ = a';
     generalize G.testBit _ = b; generalize G.testBit _ = b'; revert a a' b b'; decide)

theorem LED_switch_phase (g p : Nat) (hp : p < 8) :
    LED_switch g p =
      if g.testBit p = true then
        { OutBits := pairMask p, HighBits := 2 ^ highLine p,
          State := (LED_switch g p).State }
      else { OutBits := 0, HighBits := 0, State := (LED_switch g p).State } := by
  have hd : dec8 (p + 1) = p := by unfold dec8; omega
  have h := LED_switch_eq g (p + 1)
  rw [servicedPhase_succ p hp, hd] at h
  rw [h]
  split <;> rfl

/-! ## The start-up wait -/

theorem POR_wait_isSome (samples : List (Nat × Nat)) (s : MCU) (hp : s.gPause < 256) :
    (∃ t, POR_wait samples s = some t) ↔ s.gPause ≤ waitToggles s.gTMR0_MSB samples := by
  induction samples generalizing s with
  | nil =>
    unfold POR_wait waitToggles
    by_cases h0 : s.gPause = 0 <;> simp [h0]
  | cons smp rest ih =>
    unfold POR_wait waitToggles
    by_cases h0 : s.gPause = 0
    · simp [h0]
    · by_cases ht : (smp.1.testBit 7 != s.gTMR0_MSB.testBit 7) = true
      · have hc : (smp.1 ^^^ s.gTMR0_MSB) &&& 0x80 ≠ 0 := (toggle_test_iff _ _).2 ht
        simp only [ne_eq, h0, not_false_eq_true, if_true, hc, ht]
        rw [ih]
        · simp only [dec8]
          omega
        · simp only [dec8]
          omega
      · have hc : ¬ ((smp.1 ^^^ s.gTMR0_MSB) &&& 0x80 ≠ 0) := fun h => ht ((toggle_test_iff _ _).1 h)
        simp only [ne_eq, h0, not_false_eq_true, if_true, hc, ht, if_false,
          Bool.false_eq_true]
        exact ih s hp

theorem POR_divisor_eq (w asserts counts prescale : Nat) :
    POR_divisor w asserts counts prescale = asserts * counts * prescale % 2 ^ w := by
  unfold POR_divisor
  rw [Nat.mod_mul_mod]

theorem POR_DELAY_of_reference (w : Nat) (hw : 32 ≤ w) :
    POR_DELAY_of w FSYS TIMER0_ASSERTS_IN_ONE_SECOND TIMER0_COUNTS_UNTIL_ASSERT
      TIMER0_PRESCALE = some 61 := by
  have h32 : 2 ^ 32 ≤ 2 ^ w := Nat.pow_le_pow_right (by decide) hw
  have hd : POR_divisor w TIMER0_ASSERTS_IN_ONE_SECOND TIMER0_COUNTS_UNTIL_ASSERT
      TIMER0_PRESCALE = 16384 := by
    rw [POR_divisor_eq]
    apply Nat.mod_eq_of_lt
    exact Nat.lt_of_lt_of_le (by decide) h32
  unfold POR_DELAY_of
  rw [hd]
  decide

theorem POR_DELAY_eq : POR_DELAY = 61 := by decide

/-! ## Write sequences of consecutive calls -/

theorem writesOf_lit (s : MCU) (h : s.gLEDs.testBit (servicedPhase s.State) = true) :
    writesOf s =
      [ (Loc.TRISIO, s.gTRISIO ||| 0x36),
        (Loc.GPIO, s.GPIO &&& pairMask (servicedPhase s.State)),
        (Loc.TRISIO, (s.gTRISIO ||| 0x36) &&& pairMask (servicedPhase s.State)),
        (Loc.GPIO, (s.GPIO &&& pairMask (servicedPhase s.State)) |||
          2 ^ highLine (servicedPhase s.State)) ] := by
  rw [writesOf, regWrites, LED_refresh_run_lit s h, LED_drive_on _ _ _ (pairMask_ne_zero _)]
  rfl

theorem writesOf_dark (s : MCU) (h : s.gLEDs.testBit (servicedPhase s.State) = false) :
    writesOf s = [(Loc.TRISIO, s.gTRISIO ||| 0x36)] := by
  rw [writesOf, regWrites, LED_refresh_run_dark s h, LED_drive_off]
  rfl

theorem testBit_of_lt_256 (x i : Nat) (hx : x < 256) (hi : 8 ≤ i) : x.testBit i = false := by
  apply Nat.testBit_lt_two_pow
  calc x < 2 ^ 8 := hx
    _ ≤ 2 ^ i := Nat.pow_le_pow_right (by decide) hi

theorem pairMask_lt (p : Nat) : pairMask p < 256 := by
  unfold pairMask
  exact Nat.lt_of_le_of_lt (Nat.le_trans (Nat.sub_le _ _) (Nat.sub_le _ _)) (by decide)

theorem shadow_or_restore (T p : Nat) (hT : T < 256) (hp : p ≤ 7) :
    ((T ||| 0x36) &&& pairMask p) ||| 0x36 = T ||| 0x36 := by
  apply Nat.eq_of_testBit_eq
  intro i
  simp only [Nat.testBit_and, Nat.testBit_or]
  by_cases hi : 8 ≤ i
  · rw [testBit_of_lt_256 T i hT hi, testBit_of_lt_256 0x36 i (by decide) hi]
    simp
  · have hi' : i < 8 := by omega
    generalize T.testBit i = a
    revert a
    interval_cases p <;> interval_cases i <;> decide

theorem latch_and_restore (G p : Nat) (hp : p ≤ 7) :
    ((G &&& pairMask p) ||| 2 ^ highLine p) &&& pairMask p = G &&& pairMask p := by
  apply Nat.eq_of_testBit_eq
  intro i
  simp only [Nat.testBit_and, Nat.testBit_or]
  by_cases hi : 8 ≤ i
  · rw [testBit_of_lt_256 (pairMask p) i (pairMask_lt p) hi]
    simp
  · have hi' : i < 8 := by omega
    generalize G.testBit i = a
    revert a
    interval_cases p <;> interval_cases i <;> decide

theorem or_or_self (T : Nat) : (T ||| 0x36) ||| 0x36 = T ||| 0x36 := by
  rw [Nat.or_assoc, Nat.or_self]


theorem callsWrites_succ (n : Nat) (s : MCU) :
    callsWrites (n + 1) s = writesOf s ++ callsWrites n (LED_refresh s) := rfl

theorem SameDrive_step (s s' : MCU) (h : SameDrive s s') :
    SameDrive (LED_refresh s) (LED_refresh s') ∧
      (writesOf s).map hideLatch = (writesOf s').map hideLatch := by
  obtain ⟨hL, hS, hT⟩ := h
  by_cases hb : s.gLEDs.testBit (servicedPhase s.State) = true
  · have hb' : s'.gLEDs.testBit (servicedPhase s'.State) = true := by rw [← hL, ← hS]; exact hb
    rw [LED_refresh_eq_lit s hb, LED_refresh_eq_lit s' hb', writesOf_lit s hb,
      writesOf_lit s' hb']
    refine ⟨⟨hL, ?_, ?_⟩, ?_⟩
    · show nextState s.State = nextState s'.State
      rw [hS]
    · show (s.gTRISIO ||| 0x36) &&& _ ||| 0x36 = (s'.gTRISIO ||| 0x36) &&& _ ||| 0x36
      rw [hT, hS]
    · simp only [List.map, hideLatch, hT, hS]
  · have hb0 : s.gLEDs.testBit (servicedPhase s.State) = false := by simpa using hb
    have hb' : s'.gLEDs.testBit (servicedPhase s'.State) = false := by
      rw [← hL, ← hS]; exact hb0
    rw [LED_refresh_eq_dark s hb0, LED_refresh_eq_dark s' hb', writesOf_dark s hb0,
      writesOf_dark s' hb']
    refine ⟨⟨hL, ?_, ?_⟩, ?_⟩
    · show nextState s.State = nextState s'.State
      rw [hS]
    · show s.gTRISIO ||| 0x36 ||| 0x36 = s'.gTRISIO ||| 0x36 ||| 0x36
      rw [hT]
    · simp only [List.map, hideLatch, hT]

theorem SameLatch_step (s s' : MCU) (h : SameDrive s s') (hG : SameLatch s s') :
    SameLatch (LED_refresh s) (LED_refresh s') ∧ writesOf s = writesOf s' := by
  obtain ⟨hL, hS, hT⟩ := h
  unfold SameLatch at hG ⊢
  by_cases hb : s.gLEDs.testBit (servicedPhase s.State) = true
  · have hb' : s'.gLEDs.testBit (servicedPhase s'.State) = true := by rw [← hL, ← hS]; exact hb
    rw [LED_refresh_eq_lit s hb, LED_refresh_eq_lit s' hb', writesOf_lit s hb,
      writesOf_lit s' hb']
    simp only [hT, hS, hG, and_self]
  · have hb0 : s.gLEDs.testBit (servicedPhase s.State) = false := by simpa using hb
    have hb' : s'.gLEDs.testBit (servicedPhase s'.State) = false := by
      rw [← hL, ← hS]; exact hb0
    rw [LED_refresh_eq_dark s hb0, LED_refresh_eq_dark s' hb', writesOf_dark s hb0,
      writesOf_dark s' hb']
    simp only [hT, hG, and_self]

theorem SameLatchOutside_step (k : Nat) (s s' : MCU) (h : SameDrive s s')
    (hk : ∀ p, p ≤ 7 → s.gLEDs.testBit p = true → p = k)
    (hG : SameLatchOutside k s s') :
    SameLatchOutside k (LED_refresh s) (LED_refresh s') ∧ writesOf s = writesOf s' := by
  obtain ⟨hL, hS, hT⟩ := h
  unfold SameLatchOutside at hG ⊢
  by_cases hb : s.gLEDs.testBit (servicedPhase s.State) = true
  · have hb' : s'.gLEDs.testBit (servicedPhase s'.State) = true := by rw [← hL, ← hS]; exact hb
    have hp : servicedPhase s.State = k := hk _ (servicedPhase_le _) hb
    rw [LED_refresh_eq_lit s hb, LED_refresh_eq_lit s' hb', writesOf_lit s hb,
      writesOf_lit s' hb']
    simp only [hT, ← hS, hp, hG, and_self]
  · have hb0 : s.gLEDs.testBit (servicedPhase s.State) = false := by simpa using hb
    have hb' : s'.gLEDs.testBit (servicedPhase s'.State) = false := by
      rw [← hL, ← hS]; exact hb0
    rw [LED_refresh_eq_dark s hb0, LED_refresh_eq_dark s' hb', writesOf_dark s hb0,
      writesOf_dark s' hb']
    simp only [hT, hG, and_self]

theorem callsWrites_hidden_eq (n : Nat) (s s' : MCU) (h : SameDrive s s') :
    (callsWrites n s).map hideLatch = (callsWrites n s').map hideLatch := by
  induction n generalizing s s' with
  | zero => rfl
  | succ n ih =>
    rw [callsWrites_succ, callsWrites_succ, List.map_append, List.map_append,
      (SameDrive_step s s' h).2, ih _ _ (SameDrive_step s s' h).1]

theorem callsWrites_eq_of_SameLatch (n : Nat) (s s' : MCU) (h : SameDrive s s')
    (hG : SameLatch s s') : callsWrites n s = callsWrites n s' := by
  induction n generalizing s s' with
  | zero => rfl
  | succ n ih =>
    rw [callsWrites_succ, callsWrites_succ, (SameLatch_step s s' h hG).2,
      ih _ _ (SameDrive_step s s' h).1 (SameLatch_step s s' h hG).1]

theorem callsWrites_eq_of_SameLatchOutside (k n : Nat) (s s' : MCU) (h : SameDrive s s')
    (hk : ∀ p, p ≤ 7 → s.gLEDs.testBit p = true → p = k)
    (hG : SameLatchOutside k s s') : callsWrites n s = callsWrites n s' := by
  induction n generalizing s s' with
  | zero => rfl
  | succ n ih =>
    rw [callsWrites_succ, callsWrites_succ, (SameLatchOutside_step k s s' h hk hG).2]
    congr 1
    apply ih _ _ (SameDrive_step s s' h).1 _ (SameLatchOutside_step k s s' h hk hG).1
    rw [(LED_refresh_frame s).1]
    exact hk


theorem iterate_gLEDs (n : Nat) (s : MCU) : (LED_refresh^[n] s).gLEDs = s.gLEDs := by
  induction n with
  | zero => rfl
  | succ n ih => rw [Function.iterate_succ_apply', (LED_refresh_frame _).1, ih]

theorem iterate_State (n : Nat) (s : MCU) :
    (LED_refresh^[n] s).State = nextState^[n] s.State := by
  induction n with
  | zero => rfl
  | succ n ih =>
    rw [Function.iterate_succ_apply', LED_refresh_State, ih, Function.iterate_succ_apply']

theorem LED_refresh_shadow_or (s : MCU) (K : Nat) (hK : K < 256)
    (h : s.gTRISIO ||| 0x36 = K ||| 0x36) :
    MCU.gTRISIO (LED_refresh s) ||| 0x36 = K ||| 0x36 := by
  by_cases hb : s.gLEDs.testBit (servicedPhase s.State) = true
  · rw [LED_refresh_eq_lit s hb]
    show (s.gTRISIO ||| 0x36) &&& _ ||| 0x36 = K ||| 0x36
    rw [h, shadow_or_restore K _ hK (servicedPhase_le _)]
  · rw [LED_refresh_eq_dark s (by simpa using hb)]
    show s.gTRISIO ||| 0x36 ||| 0x36 = K ||| 0x36
    rw [h, or_or_self]

theorem iterate_shadow_or (n : Nat) (s : MCU) (hT : s.gTRISIO < 256) :
    MCU.gTRISIO (LED_refresh^[n] s) ||| 0x36 = s.gTRISIO ||| 0x36 := by
  induction n with
  | zero => rfl
  | succ n ih =>
    rw [Function.iterate_succ_apply']
    exact LED_refresh_shadow_or _ _ hT ih

theorem SameDrive_after_cycle (s : MCU) (h1 : 1 ≤ s.State) (h8 : s.State ≤ 8)
    (hT : s.gTRISIO < 256) : SameDrive (LED_refresh^[8] s) s :=
  ⟨iterate_gLEDs 8 s, (iterate_State 8 s).trans (nextState_iterate_eight _ h1 h8),
    iterate_shadow_or 8 s hT⟩

theorem iterate_SameLatchOutside (k n : Nat) (s : MCU)
    (hk : ∀ p, p ≤ 7 → s.gLEDs.testBit p = true → p = k) :
    SameLatchOutside k (LED_refresh^[n] s) s := by
  induction n with
  | zero => rfl
  | succ n ih =>
    rw [Function.iterate_succ_apply']
    generalize hu : LED_refresh^[n] s = u at ih
    have hL : u.gLEDs = s.gLEDs := by rw [← hu]; exact iterate_gLEDs n s
    unfold SameLatchOutside at ih ⊢
    by_cases hb : u.gLEDs.testBit (servicedPhase u.State) = true
    · have hp : servicedPhase u.State = k := hk _ (servicedPhase_le _) (by rw [← hL]; exact hb)
      rw [LED_refresh_eq_lit u hb]
      show (u.GPIO &&& pairMask _ ||| 2 ^ highLine _) &&& pairMask k = s.GPIO &&& pairMask k
      rw [hp, latch_and_restore _ k (by rw [← hp]; exact servicedPhase_le _), ih]
    · rw [LED_refresh_eq_dark u (by simpa using hb)]
      exact ih

theorem atMostOneBit_only (m : Nat) (h : atMostOneBit m) :
    ∃ k, ∀ p, p ≤ 7 → m.testBit p = true → p = k := by
  rcases h with rfl | ⟨k, -, rfl⟩
  · exact ⟨0, fun p _ hp => by simp at hp⟩
  · refine ⟨k, fun p _ hp => ?_⟩
    rw [Nat.one_shiftLeft, Nat.testBit_two_pow] at hp
    exact (of_decide_eq_true hp).symm

theorem latchBit_congr (s s' : MCU) (i : Nat) (hL : s.gLEDs = s'.gLEDs)
    (hS : s.State = s'.State) (h : latchBit s i = latchBit s' i) :
    latchBit (LED_refresh s) i = latchBit (LED_refresh s') i := by
  unfold latchBit at h ⊢
  by_cases hb : s.gLEDs.testBit (servicedPhase s.State) = true
  · have hb' : s'.gLEDs.testBit (servicedPhase s'.State) = true := by rw [← hL, ← hS]; exact hb
    rw [LED_refresh_eq_lit s hb, LED_refresh_eq_lit s' hb']
    simp only [Nat.testBit_and, Nat.testBit_or, h, hS]
  · have hb0 : s.gLEDs.testBit (servicedPhase s.State) = false := by simpa using hb
    have hb' : s'.gLEDs.testBit (servicedPhase s'.State) = false := by
      rw [← hL, ← hS]; exact hb0
    rw [LED_refresh_eq_dark s hb0, LED_refresh_eq_dark s' hb']
    exact h

theorem latchBit_forced (s s' : MCU) (i : Nat) (hL : s.gLEDs = s'.gLEDs)
    (hS : s.State = s'.State) (hb : s.gLEDs.testBit (servicedPhase s.State) = true)
    (hi : i = highLine (servicedPhase s.State) ∨ i = lowLine (servicedPhase s.State)) :
    latchBit (LED_refresh s) i = latchBit (LED_refresh s') i := by
  have hb' : s'.gLEDs.testBit (servicedPhase s'.State) = true := by rw [← hL, ← hS]; exact hb
  obtain ⟨-, -, -, -, a5, a6⟩ := pair_bits _ (servicedPhase_le s.State) 0 s.GPIO
  obtain ⟨-, -, -, -, b5, b6⟩ := pair_bits _ (servicedPhase_le s'.State) 0 s'.GPIO
  unfold latchBit
  rw [LED_refresh_eq_lit s hb, LED_refresh_eq_lit s' hb']
  rw [← hS] at b5 b6 ⊢
  rcases hi with rfl | rfl
  · exact a5.trans b5.symm
  · exact a6.trans b6.symm

theorem latchBit_untouched (s : MCU) (i : Nat) (hG : s.GPIO < 256)
    (hi : ∀ p, p ≤ 7 → s.gLEDs.testBit p = true → i ≠ highLine p ∧ i ≠ lowLine p) :
    latchBit (LED_refresh s) i = latchBit s i := by
  unfold latchBit
  by_cases hb : s.gLEDs.testBit (servicedPhase s.State) = true
  · obtain ⟨n1, n2⟩ := hi _ (servicedPhase_le _) hb
    have hp := servicedPhase_le s.State
    rw [LED_refresh_eq_lit s hb]
    generalize servicedPhase s.State = p at hp n1 n2
    simp only [Nat.testBit_and, Nat.testBit_or]
    by_cases h8 : 8 ≤ i
    · rw [testBit_of_lt_256 s.GPIO i hG h8, testBit_of_lt_256 _ i (pairMask_lt p) h8]
      have : (2 ^ highLine p).testBit i = false := by
        rw [Nat.testBit_two_pow]
        simpa using fun h => n1 h.symm
      simp [this]
    · have hi' : i < 8 := by omega
      generalize s.GPIO.testBit i = a
      revert a n1 n2
      interval_cases p <;> interval_cases i <;> decide
  · rw [LED_refresh_eq_dark s (by simpa using hb)]

theorem LED_refresh_latch_lt (s : MCU) (hG : s.GPIO < 256) :
    MCU.GPIO (LED_refresh s) < 256 := by
  by_cases hb : s.gLEDs.testBit (servicedPhase s.State) = true
  · rw [LED_refresh_eq_lit s hb]
    show s.GPIO &&& pairMask _ ||| 2 ^ highLine _ < 2 ^ 8
    apply Nat.or_lt_two_pow
    · exact Nat.lt_of_le_of_lt Nat.and_le_left hG
    · have hp := servicedPhase_le s.State
      generalize servicedPhase s.State = p at hp
      interval_cases p <;> decide
  · rw [LED_refresh_eq_dark s (by simpa using hb)]
    exact hG

theorem LED_refresh_shadow_lt (s : MCU) (hT : s.gTRISIO < 256) :
    MCU.gTRISIO (LED_refresh s) < 256 := by
  have h : s.gTRISIO ||| 0x36 < 2 ^ 8 := Nat.or_lt_two_pow hT (by decide)
  by_cases hb : s.gLEDs.testBit (servicedPhase s.State) = true
  · rw [LED_refresh_eq_lit s hb]
    exact Nat.lt_of_le_of_lt Nat.and_le_left h
  · rw [LED_refresh_eq_dark s (by simpa using hb)]
    exact h

theorem iterate_shadow_lt (n : Nat) (s : MCU) (hT : s.gTRISIO < 256) :
    MCU.gTRISIO (LED_refresh^[n] s) < 256 := by
  induction n with
  | zero => exact hT
  | succ n ih =>
    rw [Function.iterate_succ_apply']
    exact LED_refresh_shadow_lt _ ih

theorem iterate_latch_lt (n : Nat) (s : MCU) (hG : s.GPIO < 256) :
    MCU.GPIO (LED_refresh^[n] s) < 256 := by
  induction n with
  | zero => exact hG
  | succ n ih =>
    rw [Function.iterate_succ_apply']
    exact LED_refresh_latch_lt _ ih

theorem iterate_latchBit_untouched (n : Nat) (s : MCU) (i : Nat) (hG : s.GPIO < 256)
    (hi : ∀ p, p ≤ 7 → s.gLEDs.testBit p = true → i ≠ highLine p ∧ i ≠ lowLine p) :
    latchBit (LED_refresh^[n] s) i = latchBit s i := by
  induction n with
  | zero => rfl
  | succ n ih =>
    rw [Function.iterate_succ_apply', latchBit_untouched _ i (iterate_latch_lt n s hG), ih]
    rw [iterate_gLEDs]
    exact hi

theorem iterate_latchBit_agree (n : Nat) (s s' : MCU) (i p : Nat) (hL : s.gLEDs = s'.gLEDs)
    (hS : s.State = s'.State) (hp : s.gLEDs.testBit p = true)
    (hi : i = highLine p ∨ i = lowLine p)
    (hj : ∃ j, j < n ∧ servicedPhase (nextState^[j] s.State) = p) :
    latchBit (LED_refresh^[n] s) i = latchBit (LED_refresh^[n] s') i := by
  induction n with
  | zero =>
    obtain ⟨j, hj, -⟩ := hj
    omega
  | succ n ih =>
    have eL : (LED_refresh^[n] s).gLEDs = (LED_refresh^[n] s').gLEDs := by
      rw [iterate_gLEDs, iterate_gLEDs, hL]
    have eS : (LED_refresh^[n] s).State = (LED_refresh^[n] s').State := by
      rw [iterate_State, iterate_State, hS]
    rw [Function.iterate_succ_apply', Function.iterate_succ_apply']
    obtain ⟨j, hjn, hjp⟩ := hj
    rcases Nat.lt_succ_iff_lt_or_eq.1 hjn with hlt | heq
    · exact latchBit_congr _ _ i eL eS (ih ⟨j, hlt, hjp⟩)
    · subst heq
      have hph : servicedPhase (LED_refresh^[j] s).State = p := by
        rw [iterate_State]
        exact hjp
      apply latchBit_forced _ _ i eL eS
      · rw [hph, iterate_gLEDs]
        exact hp
      · rw [hph]
        exact hi

theorem phase_covered (S p : Nat) (h1 : 1 ≤ S) (h8 : S ≤ 8) (hp : p ≤ 7) :
    ∃ j, j < 8 ∧ servicedPhase (nextState^[j] S) = p := by
  interval_cases S <;> interval_cases p <;> decide

theorem SameLatch_steady (s : MCU) (h1 : 1 ≤ s.State) (h8 : s.State ≤ 8)
    (hG : s.GPIO < 256) :
    SameLatch (LED_refresh^[8] (LED_refresh^[8] s)) (LED_refresh^[8] s) := by
  have eL : (LED_refresh^[8] s).gLEDs = s.gLEDs := iterate_gLEDs 8 s
  have eS : (LED_refresh^[8] s).State = s.State :=
    (iterate_State 8 s).trans (nextState_iterate_eight _ h1 h8)
  unfold SameLatch
  apply Nat.eq_of_testBit_eq
  intro i
  show latchBit (LED_refresh^[8] (LED_refresh^[8] s)) i = latchBit (LED_refresh^[8] s) i
  by_cases ht : ∃ p, p ≤ 7 ∧ s.gLEDs.testBit p = true ∧ (i = highLine p ∨ i = lowLine p)
  · obtain ⟨p, hp7, hp, hi⟩ := ht
    apply iterate_latchBit_agree 8 _ _ i p eL eS (by rw [eL]; exact hp) hi
    rw [eS]
    exact phase_covered _ p h1 h8 hp7
  · apply iterate_latchBit_untouched 8 _ i (iterate_latch_lt 8 s hG)
    intro p hp7 hp
    rw [eL] at hp
    constructor
    · intro h
      exact ht ⟨p, hp7, hp, Or.inl h⟩
    · intro h
      exact ht ⟨p, hp7, hp, Or.inr h⟩

/-! ## Claims -/

/-- C1: a call of `LED_refresh` entered with `State = p + 1` (phase `p`, for
`p` in 0..7) and bit `p` of the mask set returns with, among the four
shared lines, exactly the high and the low line of phase `p` configured as
outputs in both `gTRISIO` and `TRISIO`, the latch bit of the high line 1 and
that of the low line 0; the two lines are distinct shared lines given by the
wiring table (7: GP5,GP2; 6: GP2,GP5; 5: GP4,GP5; 4: GP1,GP2; 3: GP5,GP4;
2: GP2,GP4; 1: GP4,GP2; 0: GP2,GP1). -/
theorem LED_refresh_lit (p : Nat) (hp : p < 8) (s : MCU) (hS : s.State = p + 1)
    (hbit : s.gLEDs.testBit p = true) :
    let t := LED_refresh s
    (∀ l ∈ sharedLines, t.gTRISIO.testBit l = decide (l ≠ highLine p ∧ l ≠ lowLine p)) ∧
    (∀ l ∈ sharedLines, t.TRISIO.testBit l = decide (l ≠ highLine p ∧ l ≠ lowLine p)) ∧
    t.GPIO.testBit (highLine p) = true ∧
    t.GPIO.testBit (lowLine p) = false ∧
    highLine p ∈ sharedLines ∧ lowLine p ∈ sharedLines ∧ highLine p ≠ lowLine p ∧
    (highLine p, lowLine p) =
      [(2, 1), (4, 2), (2, 4), (5, 4), (1, 2), (4, 5), (2, 5), (5, 2)].getD p (0, 0) := by
  have hph : servicedPhase s.State = p := by rw [hS]; exact servicedPhase_succ p hp
  have hb : s.gLEDs.testBit (servicedPhase s.State) = true := by rw [hph]; exact hbit
  have hne := pairMask_ne_zero s.State
  intro t
  have ht : t = LED_refresh s := rfl
  clear_value t
  rw [ht, LED_refresh, LED_refresh_run_lit s hb, LED_drive_on _ _ _ hne, hph]
  simp only [sharedLines, List.mem_cons, List.mem_singleton, forall_eq_or_imp, forall_eq,
    Nat.testBit_and, Nat.testBit_or, List.not_mem_nil, false_implies, implies_true,
    and_true, Nat.testBit_two_pow_self]
  interval_cases p <;> simp +decide [highLine, lowLine, pairMask]

theorem LED_refresh_lit_witness :
    7 < 8 ∧ ({ afterInit with gLEDs := 0x80 } : MCU).State = 7 + 1 ∧
    Nat.testBit ({ afterInit with gLEDs := 0x80 } : MCU).gLEDs 7 = true ∧
    (let t := LED_refresh { afterInit with gLEDs := 0x80 }
     t.GPIO.testBit 5 = true ∧ t.GPIO.testBit 2 = false) :=
  ⟨by decide, rfl, by decide,
    (LED_refresh_lit 7 (by decide) { afterInit with gLEDs := 0x80 } rfl (by decide)).2.2.1,
    (LED_refresh_lit 7 (by decide) { afterInit with gLEDs := 0x80 } rfl (by decide)).2.2.2.1⟩

/-- C2: from any state in which `PIC_Init` has left the port (all lines
inputs, latch 0), after any number of `LED_refresh` calls with arbitrary masks
at most one of the 8 LED positions conducts, and the same holds in the state
right after every single store of a further call (with any mask), the stores
to the shadow `gTRISIO` included. -/
theorem at_most_one_LED_conducts (s0 : MCU) (h0 : PostInit s0) (masks : List Nat) (m : Nat) :
    let s := refreshCalls masks s0
    conductingCount s ≤ 1 ∧
      ∀ w ∈ (LED_refresh_run { s with gLEDs := m }).log, conductingCount w.post ≤ 1 := by
  intro s
  have hs : outputCount s.TRISIO ≤ 2 := by
    apply refreshCalls_outputCount
    unfold outputLines
    rw [h0.2.2]
    decide
  refine ⟨conductingCount_le_one s hs, fun w hw => ?_⟩
  apply conductingCount_le_one
  rcases log_outputCount _ w hw with h | h | h
  · rw [h]
    exact hs
  · omega
  · omega

theorem at_most_one_LED_conducts_witness :
    PostInit afterInit ∧
    (let s := refreshCalls [0x01, 0xFF, 0x80] afterInit
     conductingCount s ≤ 1 ∧
       ∀ w ∈ (LED_refresh_run { s with gLEDs := 0x10 }).log, conductingCount w.post ≤ 1) :=
  ⟨by decide, at_most_one_LED_conducts afterInit (by decide) [0x01, 0xFF, 0x80] 0x10⟩

/-- C3: for every starting state (its mask included), right after each store
to `TRISIO` done by a call of `LED_refresh` the number of shared lines
(GP1, GP2, GP4, GP5) configured as outputs is 0 or 2. -/
theorem TRISIO_writes_zero_or_two_outputs (s : MCU) :
    ∀ w ∈ (LED_refresh_run s).log, w.loc = Loc.TRISIO →
      outputCount w.post.TRISIO = 0 ∨ outputCount w.post.TRISIO = 2 := by
  intro w hw hl
  by_cases hb : s.gLEDs.testBit (servicedPhase s.State) = true
  · rw [LED_refresh_run_lit s hb, LED_drive_on _ _ _ (pairMask_ne_zero _)] at hw
    simp only [List.nil_append, List.mem_cons, List.mem_singleton, List.not_mem_nil,
      or_false] at hw
    rcases hw with h | h | h | h | h | h <;> subst h <;>
      simp_all [outputCount_all_inputs, outputCount_pair]
  · rw [LED_refresh_run_dark s (by simpa using hb), LED_drive_off] at hw
    simp only [List.nil_append, List.mem_cons, List.mem_singleton, List.not_mem_nil,
      or_false] at hw
    rcases hw with h | h <;> subst h <;> simp_all [outputCount_all_inputs]

theorem TRISIO_writes_zero_or_two_outputs_witness :
    ({ loc := Loc.TRISIO, post := { afterInit with gLEDs := 0xFF, State := 7 } } : Store) ∈
      (LED_refresh_run { afterInit with gLEDs := 0xFF }).log ∧
    outputLines { afterInit with gLEDs := 0xFF, State := 7 } = 0 := by
  have hmem : ({ loc := Loc.TRISIO, post := { afterInit with gLEDs := 0xFF, State := 7 } } : Store) ∈
      (LED_refresh_run { afterInit with gLEDs := 0xFF }).log := by decide
  refine ⟨hmem, ?_⟩
  rcases TRISIO_writes_zero_or_two_outputs { afterInit with gLEDs := 0xFF } _ hmem rfl with h | h
  · exact h
  · exact absurd h (by decide)

/-- C4: in every call of `LED_refresh`, whatever the starting state and mask,
the first store to a hardware register is a store to `TRISIO` whose value has
the bits of all four shared lines at 1 (no shared line an output); every store
to `GPIO` and every store to `TRISIO` that makes a shared line an output comes
at a later position of the call. -/
theorem first_write_all_inputs (s : MCU) :
    ∃ w rest, regWrites s = w :: rest ∧ w.loc = Loc.TRISIO ∧
      (∀ l ∈ sharedLines, w.post.TRISIO.testBit l = true) ∧
      outputCount w.post.TRISIO = 0 ∧
      ∀ (i : Nat) (v : Store), (regWrites s)[i]? = some v →
        v.loc = Loc.GPIO ∨ (v.loc = Loc.TRISIO ∧ 0 < outputCount v.post.TRISIO) → 0 < i := by
  obtain ⟨rest, hr⟩ := regWrites_head s
  refine ⟨_, rest, hr, rfl, sharedLines_bits_or _, outputCount_all_inputs _, ?_⟩
  intro i v hv hc
  rcases Nat.eq_zero_or_pos i with hi | hi
  · subst hi
    rw [hr] at hv
    simp only [List.getElem?_cons_zero, Option.some.injEq] at hv
    subst hv
    rcases hc with hc | ⟨_, hc⟩
    · cases hc
    · rw [outputCount_all_inputs] at hc
      omega
  · exact hi

theorem first_write_all_inputs_witness :
    ∃ w rest, regWrites { afterInit with gLEDs := 0xFF } = w :: rest ∧ w.loc = Loc.TRISIO ∧
      rest.length = 3 := by
  obtain ⟨w, rest, h1, h2, -⟩ := first_write_all_inputs { afterInit with gLEDs := 0xFF }
  refine ⟨w, rest, h1, h2, ?_⟩
  have hl : (regWrites { afterInit with gLEDs := 0xFF }).length = 4 := by decide
  rw [h1] at hl
  simpa using hl

/-- C5: for every starting state, when the mask bit of the phase the call
services is 0, `LED_refresh` does exactly one store to a hardware register,
`TRISIO := gTRISIO | 0b00110110` with the `gTRISIO` of entry, leaves the `GPIO`
latch as it was, and returns with all four shared lines inputs in `TRISIO` and
in the shadow. -/
theorem LED_refresh_dark (s : MCU) (h : s.gLEDs.testBit (servicedPhase s.State) = false) :
    let t := LED_refresh s
    (∃ w, regWrites s = [w] ∧ w.loc = Loc.TRISIO ∧
      w.post.TRISIO = s.gTRISIO ||| 0b00110110) ∧
    t.GPIO = s.GPIO ∧
    (∀ l ∈ sharedLines, t.TRISIO.testBit l = true ∧ t.gTRISIO.testBit l = true) ∧
    outputCount t.TRISIO = 0 := by
  intro t
  have ht : t = LED_refresh s := rfl
  clear_value t
  rw [ht, LED_refresh, regWrites, LED_refresh_run_dark s h, LED_drive_off]
  refine ⟨⟨_, rfl, rfl, rfl⟩, rfl, ?_, outputCount_all_inputs _⟩
  intro l hl
  exact ⟨sharedLines_bits_or _ l hl, sharedLines_bits_or _ l hl⟩

theorem LED_refresh_dark_witness :
    Nat.testBit ({ afterInit with gLEDs := 0x7F } : MCU).gLEDs
      (servicedPhase ({ afterInit with gLEDs := 0x7F } : MCU).State) = false ∧
    (let t := LED_refresh { afterInit with gLEDs := 0x7F }
     t.GPIO = 0) :=
  ⟨by decide, (LED_refresh_dark { afterInit with gLEDs := 0x7F } (by decide)).2.1⟩

/-- C6: the phase a call services always lies in 0..7; started with
`State = 8`, the call that follows `n` earlier calls services phase
`7 - n mod 8` whatever the masks, so the phases run 7, 6, ..., 0, 7, 6, ...;
among any 8 consecutive calls each phase 0..7 is serviced by exactly one; and
from every `State` in 1..8, 8 calls bring `State` back to its value. -/
theorem phase_cycle :
    (∀ S : Nat, servicedPhase S ≤ 7) ∧
    (∀ (s : MCU) (masks : List Nat), s.State = MAX_LED_STATES →
      servicedPhase (refreshCalls masks s).State = 7 - masks.length % 8) ∧
    (∀ (s : MCU) (masks : List Nat) (k : Nat), s.State = MAX_LED_STATES →
      k + 8 ≤ masks.length → ∀ p, p < 8 →
        ∃! j, j < 8 ∧ servicedPhase (refreshCalls (masks.take (k + j)) s).State = p) ∧
    (∀ (s : MCU) (masks : List Nat), 1 ≤ s.State → s.State ≤ 8 → masks.length = 8 →
      (refreshCalls masks s).State = s.State) := by
  have hb : ∀ (s : MCU) (masks : List Nat), s.State = MAX_LED_STATES →
      servicedPhase (refreshCalls masks s).State = 7 - masks.length % 8 := by
    intro s masks hS
    rw [refreshCalls_State, hS, MAX_LED_STATES, nextState_iterate_top, servicedPhase_countdown]
  refine ⟨servicedPhase_le, hb, ?_, ?_⟩
  · intro s masks k hS hk p hp
    have key : ∀ j, j < 8 →
        servicedPhase (refreshCalls (masks.take (k + j)) s).State = 7 - (k + j) % 8 := by
      intro j hj
      rw [hb s _ hS, List.length_take, Nat.min_eq_left (by omega)]
    refine ⟨(15 - p - k % 8) % 8, ⟨by omega, ?_⟩, ?_⟩
    · rw [key _ (by omega)]
      omega
    · rintro j ⟨hj, hjp⟩
      rw [key j hj] at hjp
      omega
  · intro s masks h1 h8 hl
    rw [refreshCalls_State, hl]
    exact nextState_iterate_eight _ h1 h8

theorem phase_cycle_witness :
    afterInit.State = MAX_LED_STATES ∧
    servicedPhase (refreshCalls [0x01, 0x00, 0xFF] afterInit).State = 7 - 3 % 8 ∧
    (refreshCalls [0x01, 0x02, 0x04, 0x08, 0x10, 0x20, 0x40, 0x80] afterInit).State =
      afterInit.State :=
  ⟨rfl, phase_cycle.2.1 afterInit [0x01, 0x00, 0xFF] rfl,
    phase_cycle.2.2.2 afterInit [0x01, 0x02, 0x04, 0x08, 0x10, 0x20, 0x40, 0x80]
      (by decide) (by decide) rfl⟩

/-- C8: applying the mask step `k ≥ 1` times to the zero mask gives the
single bit `1 << ((k - 1) mod 8)`; hence in the loop of `main`, started with
`gLEDs = 0`, for every sequence of timer samples the mask after the `k`-th
step-delay expiry (`k ≥ 1`) is `1 << ((k - 1) mod 8)`. -/
theorem walking_bit :
    (∀ k, 1 ≤ k → maskStep^[k] 0 = 1 <<< ((k - 1) % 8)) ∧
    (∀ (s : MCU) (samples : List (Nat × Nat)), s.gLEDs = 0 →
      1 ≤ expiryCount samples s →
        (main_loop samples s).gLEDs = 1 <<< ((expiryCount samples s - 1) % 8)) := by
  have h1 : ∀ k, 1 ≤ k → maskStep^[k] 0 = 1 <<< ((k - 1) % 8) := by
    intro k hk
    obtain ⟨n, rfl⟩ : ∃ n, k = n + 1 := ⟨k - 1, by omega⟩
    rw [maskStep_iterate_zero]
    rfl
  refine ⟨h1, ?_⟩
  intro s samples hz hk
  rw [main_loop_gLEDs, hz]
  exact h1 _ hk

set_option maxRecDepth 100000 in
theorem walking_bit_witness :
    loopEntry.gLEDs = 0 ∧ 1 ≤ expiryCount (squareWave 64) loopEntry ∧
    (main_loop (squareWave 64) loopEntry).gLEDs =
      1 <<< ((expiryCount (squareWave 64) loopEntry - 1) % 8) :=
  ⟨rfl, by decide, walking_bit.2 loopEntry (squareWave 64) rfl (by decide)⟩

/-- C9: the mask step never yields 0, for any mask; hence in the loop of
`main`, for every starting state and every sequence of timer samples, the mask
is non-zero after every iteration from the first step-delay expiry on. -/
theorem mask_never_dark :
    (∀ m, maskStep m ≠ 0) ∧
    (∀ (s : MCU) (samples : List (Nat × Nat)), 1 ≤ expiryCount samples s →
      (main_loop samples s).gLEDs ≠ 0) := by
  refine ⟨maskStep_ne_zero, ?_⟩
  intro s samples hk
  rw [main_loop_gLEDs]
  obtain ⟨n, hn⟩ : ∃ n, expiryCount samples s = n + 1 := ⟨expiryCount samples s - 1, by omega⟩
  rw [hn, Function.iterate_succ_apply']
  exact maskStep_ne_zero _

set_option maxRecDepth 100000 in
theorem mask_never_dark_witness :
    1 ≤ expiryCount (squareWave 70) loopEntry ∧
    (main_loop (squareWave 70) loopEntry).gLEDs ≠ 0 :=
  ⟨by decide, mask_never_dark.2 loopEntry (squareWave 70) (by decide)⟩

/-- C10: run the loop of `main` from a state with `gPause = 64` over any
sequence of timer samples, and let `n` be the number of toggles observed so
far.  The next iteration, if it observes a toggle and that toggle is the
64th, 128th, ... (`(n + 1) mod 64 = 0`), applies the mask step exactly once
and resets `gPause` to 64; every other iteration leaves the mask unchanged. -/
theorem mask_steps_on_every_64th_toggle (s : MCU) (hP : s.gPause = LED_STEP_DELAY)
    (samples : List (Nat × Nat)) (smp : Nat × Nat) :
    let s' := main_loop samples s
    let n := toggleCount samples s
    (observesToggle smp s' = true ∧ (n + 1) % 64 = 0 →
      (main_iter smp s').gLEDs = maskStep s'.gLEDs ∧ (main_iter smp s').gPause = 64) ∧
    (¬ (observesToggle smp s' = true ∧ (n + 1) % 64 = 0) →
      (main_iter smp s').gLEDs = s'.gLEDs) := by
  intro s' n
  have hp : s'.gPause = 64 - (0 + n) % 64 := main_loop_gPause samples s 0 (by rw [hP]; rfl)
  have hd : dec8 s'.gPause = 0 ↔ (n + 1) % 64 = 0 := by
    rw [hp, dec8]
    omega
  constructor
  · rintro ⟨ht, hn⟩
    have he : expires smp s' = true := by simp [expires, ht, hd.2 hn]
    rw [main_iter_gLEDs, main_iter_gPause]
    simp [he, ht, hd.2 hn, LED_STEP_DELAY]
  · intro hno
    have he : ¬ expires smp s' = true := by
      simp only [expires, Bool.and_eq_true, beq_iff_eq, hd]
      exact hno
    rw [main_iter_gLEDs]
    simp [he]

set_option maxRecDepth 100000 in
theorem mask_steps_on_every_64th_toggle_witness :
    loopEntry.gPause = LED_STEP_DELAY ∧
    (observesToggle (0x00, 0x00) (main_loop (squareWave 63) loopEntry) = true ∧
      (toggleCount (squareWave 63) loopEntry + 1) % 64 = 0) ∧
    (main_iter (0x00, 0x00) (main_loop (squareWave 63) loopEntry)).gLEDs =
      maskStep (main_loop (squareWave 63) loopEntry).gLEDs ∧
    (main_iter (0x00, 0x00) (main_loop (squareWave 63) loopEntry)).gPause = 64 :=
  ⟨rfl, by decide,
    (mask_steps_on_every_64th_toggle loopEntry rfl (squareWave 63) (0x00, 0x00)).1 (by decide)⟩

/-- C11: in the loop of `main` entered with `State = 8`, the call of
`LED_refresh` in iteration `n` (counting from 0) services phase `7 - n mod 8`,
for every sequence of timer samples and every starting mask; hence two runs
with different samples and masks service the same phase in every iteration,
and a mask update neither skips nor repeats a phase. -/
theorem main_loop_phase_schedule :
    (∀ (s : MCU) (samples : List (Nat × Nat)), s.State = MAX_LED_STATES →
      servicedPhase (main_loop samples s).State = 7 - samples.length % 8) ∧
    (∀ (s s' : MCU) (samples samples' : List (Nat × Nat)),
      s.State = MAX_LED_STATES → s'.State = MAX_LED_STATES →
      samples.length = samples'.length →
      servicedPhase (main_loop samples s).State =
        servicedPhase (main_loop samples' s').State) := by
  have h1 : ∀ (s : MCU) (samples : List (Nat × Nat)), s.State = MAX_LED_STATES →
      servicedPhase (main_loop samples s).State = 7 - samples.length % 8 := by
    intro s samples hS
    rw [main_loop_State, hS, MAX_LED_STATES, nextState_iterate_top, servicedPhase_countdown]
  refine ⟨h1, ?_⟩
  intro s s' samples samples' hS hS' hl
  rw [h1 s samples hS, h1 s' samples' hS', hl]

theorem main_loop_phase_schedule_witness :
    loopEntry.State = MAX_LED_STATES ∧
    servicedPhase (main_loop (squareWave 11) loopEntry).State =
      7 - (squareWave 11).length % 8 :=
  ⟨rfl, main_loop_phase_schedule.1 loopEntry (squareWave 11) rfl⟩

/-- C13, the claim as stated fails: in the call that services phase 7 with
mask `0b10000000`, right after the `TRISIO` store that makes GP5 and GP2
outputs (the fifth store of the call) the latch bit of the high line GP5 is
still 0. -/
theorem high_level_set_after_direction :
    Nat.testBit ({ afterInit with gLEDs := 0x80 } : MCU).gLEDs
        (servicedPhase ({ afterInit with gLEDs := 0x80 } : MCU).State) = true ∧
    servicedPhase ({ afterInit with gLEDs := 0x80 } : MCU).State = 7 ∧
    ∃ w, (LED_refresh_run { afterInit with gLEDs := 0x80 }).log[4]? = some w ∧
      w.loc = Loc.TRISIO ∧ w.post.TRISIO.testBit (highLine 7) = false ∧
      w.post.TRISIO.testBit (lowLine 7) = false ∧
      w.post.GPIO.testBit (highLine 7) = false := by
  refine ⟨by decide, by decide, _, rfl, ?_⟩
  decide

/-- C13, amended: in every call that services a phase whose mask bit is
set, the stores end with a `TRISIO` store followed by a `GPIO` store.  No
earlier `TRISIO` store of the call enables an output.  Right after that
`TRISIO` store exactly the two lines of the phase are outputs and the latch
holds 0 on both of them; the final `GPIO` store then sets the latch of the
high line to 1, leaving the low line at 0 and the direction unchanged. -/
theorem levels_low_then_outputs_then_high (s : MCU)
    (h : s.gLEDs.testBit (servicedPhase s.State) = true) :
    ∃ pre w fin, (LED_refresh_run s).log = pre ++ [w, fin] ∧
      (∀ v ∈ pre, v.loc = Loc.TRISIO → outputCount v.post.TRISIO = 0) ∧
      w.loc = Loc.TRISIO ∧ outputCount w.post.TRISIO = 2 ∧
      w.post.TRISIO.testBit (highLine (servicedPhase s.State)) = false ∧
      w.post.TRISIO.testBit (lowLine (servicedPhase s.State)) = false ∧
      w.post.GPIO.testBit (highLine (servicedPhase s.State)) = false ∧
      w.post.GPIO.testBit (lowLine (servicedPhase s.State)) = false ∧
      fin.loc = Loc.GPIO ∧ fin.post.TRISIO = w.post.TRISIO ∧
      fin.post.GPIO.testBit (highLine (servicedPhase s.State)) = true ∧
      fin.post.GPIO.testBit (lowLine (servicedPhase s.State)) = false := by
  obtain ⟨b1, b2, b3, b4, b5, b6⟩ := pair_bits _ (servicedPhase_le s.State) s.gTRISIO s.GPIO
  rw [LED_refresh_run_lit s h, LED_drive_on _ _ _ (pairMask_ne_zero _)]
  refine ⟨[_, _, _, _], _, _, rfl, ?_, rfl,
    outputCount_pair _ _, b1, b2, b3, b4, rfl, rfl, b5, b6⟩
  intro v hv hl
  simp only [List.nil_append, List.mem_cons, List.mem_singleton, List.not_mem_nil,
    or_false] at hv
  rcases hv with rfl | rfl | rfl | rfl
  · cases hl
  · exact outputCount_all_inputs _
  · cases hl
  · cases hl

theorem levels_low_then_outputs_then_high_witness :
    Nat.testBit ({ afterInit with gLEDs := 0x80 } : MCU).gLEDs
        (servicedPhase ({ afterInit with gLEDs := 0x80 } : MCU).State) = true ∧
    ∃ pre w fin, (LED_refresh_run { afterInit with gLEDs := 0x80 }).log = pre ++ [w, fin] ∧
      w.loc = Loc.TRISIO ∧ fin.loc = Loc.GPIO := by
  refine ⟨by decide, ?_⟩
  obtain ⟨pre, w, fin, h1, -, h2, -, -, -, -, -, h3, -⟩ :=
    levels_low_then_outputs_then_high { afterInit with gLEDs := 0x80 } (by decide)
  exact ⟨pre, w, fin, h1, h2, h3⟩

/-- C14: for every starting state (`TRISIO` need not equal `gTRISIO`) and
every mask, each store of `LED_refresh` to `TRISIO` writes the value the shadow
`gTRISIO` holds at that moment and is immediately preceded by the store to the
shadow; each store to the shadow is immediately followed by the store of the
same value to `TRISIO`; and on return `TRISIO = gTRISIO`. -/
theorem shadow_then_register (s : MCU) :
    let log := (LED_refresh_run s).log
    let t := LED_refresh s
    (∀ (i : Nat) (w : Store), log[i]? = some w → w.loc = Loc.TRISIO →
      w.post.TRISIO = w.post.gTRISIO ∧
      ∃ j v, i = j + 1 ∧ log[j]? = some v ∧ v.loc = Loc.gTRISIO ∧
        v.post.gTRISIO = w.post.TRISIO) ∧
    (∀ (j : Nat) (v : Store), log[j]? = some v → v.loc = Loc.gTRISIO →
      ∃ w, log[j + 1]? = some w ∧ w.loc = Loc.TRISIO ∧ w.post.TRISIO = v.post.gTRISIO) ∧
    t.TRISIO = t.gTRISIO := by
  intro log t
  have hlog : log = (LED_refresh_run s).log := rfl
  have ht : t = (LED_refresh_run s).cur := rfl
  clear_value log t
  by_cases hb : s.gLEDs.testBit (servicedPhase s.State) = true
  · rw [LED_refresh_run_lit s hb, LED_drive_on _ _ _ (pairMask_ne_zero _)] at hlog ht
    subst hlog ht
    refine ⟨?_, ?_, rfl⟩
    · intro i w hw hl
      match i with
      | 0 => simp at hw; subst hw; cases hl
      | 1 => simp at hw; subst hw; exact ⟨rfl, 0, _, rfl, rfl, rfl, rfl⟩
      | 2 => simp at hw; subst hw; cases hl
      | 3 => simp at hw; subst hw; cases hl
      | 4 => simp at hw; subst hw; exact ⟨rfl, 3, _, rfl, rfl, rfl, rfl⟩
      | 5 => simp at hw; subst hw; cases hl
      | n + 6 => simp at hw
    · intro j v hv hl
      match j with
      | 0 => simp at hv; subst hv; exact ⟨_, rfl, rfl, rfl⟩
      | 1 => simp at hv; subst hv; cases hl
      | 2 => simp at hv; subst hv; cases hl
      | 3 => simp at hv; subst hv; exact ⟨_, rfl, rfl, rfl⟩
      | 4 => simp at hv; subst hv; cases hl
      | 5 => simp at hv; subst hv; cases hl
      | n + 6 => simp at hv
  · rw [LED_refresh_run_dark s (by simpa using hb), LED_drive_off] at hlog ht
    subst hlog ht
    refine ⟨?_, ?_, rfl⟩
    · intro i w hw hl
      match i with
      | 0 => simp at hw; subst hw; cases hl
      | 1 => simp at hw; subst hw; exact ⟨rfl, 0, _, rfl, rfl, rfl, rfl⟩
      | n + 2 => simp at hw
    · intro j v hv hl
      match j with
      | 0 => simp at hv; subst hv; exact ⟨_, rfl, rfl, rfl⟩
      | 1 => simp at hv; subst hv; cases hl
      | n + 2 => simp at hv

theorem shadow_then_register_witness :
    ∃ w, (LED_refresh_run { afterInit with gLEDs := 0x80, TRISIO := 0 }).log[4]? = some w ∧
      w.loc = Loc.TRISIO ∧ w.post.TRISIO = w.post.gTRISIO :=
  ⟨_, rfl, rfl,
    ((shadow_then_register { afterInit with gLEDs := 0x80, TRISIO := 0 }).1 4 _ rfl rfl).1⟩

/-- C15: `LED_refresh` leaves `gLEDs`, `gPause` and `gTMR0_MSB` unchanged in
every state; hence two runs of the loop of `main` over the same timer samples
from states that agree on these three variables produce the same mask after
every number of iterations, whatever `State`, `gTRISIO`, `TRISIO` and `GPIO`
hold. -/
theorem LED_refresh_no_feedback :
    (∀ s : MCU, (LED_refresh s).gLEDs = s.gLEDs ∧ (LED_refresh s).gPause = s.gPause ∧
      (LED_refresh s).gTMR0_MSB = s.gTMR0_MSB) ∧
    (∀ (samples : List (Nat × Nat)) (s s' : MCU), s.gLEDs = s'.gLEDs →
      s.gPause = s'.gPause → s.gTMR0_MSB = s'.gTMR0_MSB →
      (main_loop samples s).gLEDs = (main_loop samples s').gLEDs) :=
  ⟨LED_refresh_frame, main_loop_mask_eq⟩

theorem LED_refresh_no_feedback_witness :
    loopEntry.gLEDs = ({ loopEntry with State := 3, gTRISIO := 0x12, GPIO := 0x34 } : MCU).gLEDs ∧
    (main_loop (squareWave 200) loopEntry).gLEDs =
      (main_loop (squareWave 200)
        { loopEntry with State := 3, gTRISIO := 0x12, GPIO := 0x34 }).gLEDs :=
  ⟨rfl, LED_refresh_no_feedback.2 (squareWave 200) loopEntry
    { loopEntry with State := 3, gTRISIO := 0x12, GPIO := 0x34 } rfl rfl rfl⟩

/-- C18: the phase table of the `switch` is injective.  For `p` in 0..7 the
branch of phase `p` drives lines exactly when `gLEDs & (1 << p)` is non-zero;
it then sets `HighBits` to the bit of `highLine p` and `OutBits` to the
complement of the bits of `highLine p` and `lowLine p`, two different lines
among GP1, GP2, GP4, GP5; the 8 ordered (high, low) pairs are pairwise
distinct, so two different set mask bits never select the same `HighBits` and
`OutBits`. -/
theorem phase_table_injective :
    (∀ g p, p < 8 → ((LED_switch g p).OutBits ≠ 0 ↔ g &&& (1 <<< p) ≠ 0)) ∧
    (∀ g p, p < 8 → g &&& (1 <<< p) ≠ 0 →
      (LED_switch g p).HighBits = 1 <<< highLine p ∧
      (LED_switch g p).OutBits = not8 ((1 <<< highLine p) ||| (1 <<< lowLine p))) ∧
    (∀ p, p < 8 → highLine p ∈ sharedLines ∧ lowLine p ∈ sharedLines ∧
      highLine p ≠ lowLine p) ∧
    (∀ p q, p < 8 → q < 8 → (highLine p, lowLine p) = (highLine q, lowLine q) → p = q) ∧
    (∀ g p q, p < 8 → q < 8 → g &&& (1 <<< p) ≠ 0 → g &&& (1 <<< q) ≠ 0 →
      (LED_switch g p).HighBits = (LED_switch g q).HighBits →
      (LED_switch g p).OutBits = (LED_switch g q).OutBits → p = q) := by
  have hbit : ∀ g p : Nat, g &&& (1 <<< p) ≠ 0 ↔ g.testBit p = true := by
    intro g p
    rw [Nat.one_shiftLeft]
    exact and_two_pow_ne_zero g p
  have hlit : ∀ g p, p < 8 → g &&& (1 <<< p) ≠ 0 →
      (LED_switch g p).HighBits = 2 ^ highLine p ∧ (LED_switch g p).OutBits = pairMask p := by
    intro g p hp hg
    rw [LED_switch_phase g p hp, if_pos ((hbit g p).1 hg)]
    exact ⟨rfl, rfl⟩
  refine ⟨?_, ?_, ?_, ?_, ?_⟩
  · intro g p hp
    rw [hbit, LED_switch_phase g p hp]
    by_cases hb : g.testBit p = true
    · simp only [hb, if_true, iff_true]
      interval_cases p <;> decide
    · simp [hb]
  · intro g p hp hg
    obtain ⟨h1, h2⟩ := hlit g p hp hg
    rw [h1, h2]
    interval_cases p <;> decide
  · intro p hp
    interval_cases p <;> decide
  · intro p q hp hq h
    interval_cases p <;> interval_cases q <;> first | rfl | exact absurd h (by decide)
  · intro g p q hp hq hgp hgq hH hO
    rw [(hlit g p hp hgp).1, (hlit g q hq hgq).1] at hH
    rw [(hlit g p hp hgp).2, (hlit g q hq hgq).2] at hO
    interval_cases p <;> interval_cases q <;>
      first | rfl | exact absurd hH (by decide) | exact absurd hO (by decide)

theorem phase_table_injective_witness :
    4 < 8 ∧ 0xFF &&& (1 <<< 4) ≠ 0 ∧ (LED_switch 0xFF 4).HighBits = 1 <<< highLine 4 ∧
    (LED_switch 0xFF 4).OutBits = not8 ((1 <<< highLine 4) ||| (1 <<< lowLine 4)) :=
  ⟨by decide, by decide, phase_table_injective.2.1 0xFF 4 (by decide) (by decide)⟩

/-- C19: for every state and mask, `LED_refresh` leaves bits 0, 3, 6 and 7
of the shadow `gTRISIO` and of the `GPIO` latch as they were; hence from a
state in which `PIC_Init` has left the port, after any number of calls with any
masks GP0 (the button line) and GP3 are still inputs in `gTRISIO` and in
`TRISIO`. -/
theorem LED_refresh_frame_bits :
    (∀ (s : MCU) (i : Nat), i ∈ [0, 3, 6, 7] →
      let t := LED_refresh s
      t.gTRISIO.testBit i = s.gTRISIO.testBit i ∧ t.GPIO.testBit i = s.GPIO.testBit i) ∧
    (∀ (s : MCU) (masks : List Nat), PostInit s →
      let t := refreshCalls masks s
      t.gTRISIO.testBit 0 = true ∧ t.gTRISIO.testBit 3 = true ∧
        t.TRISIO.testBit 0 = true ∧ t.TRISIO.testBit 3 = true) := by
  constructor
  · intro s i hi t
    exact ⟨(LED_refresh_other_bits s i hi).1, (LED_refresh_other_bits s i hi).2.2⟩
  · intro s masks h t
    have hg : s.gTRISIO.testBit 0 = true ∧ s.gTRISIO.testBit 3 = true := by
      rw [h.2.1]; decide
    have ht : s.TRISIO.testBit 0 = true ∧ s.TRISIO.testBit 3 = true := by
      rw [h.2.2]; decide
    have := refreshCalls_button_bits masks s ⟨hg.1, ht.1⟩ ⟨hg.2, ht.2⟩
    exact ⟨this.1.1, this.2.1, this.1.2, this.2.2⟩

theorem LED_refresh_frame_bits_witness :
    PostInit afterInit ∧
    (let t := refreshCalls [0xFF, 0x00, 0x81] afterInit
     t.gTRISIO.testBit 0 = true ∧ t.gTRISIO.testBit 3 = true ∧
       t.TRISIO.testBit 0 = true ∧ t.TRISIO.testBit 3 = true) :=
  ⟨by decide, LED_refresh_frame_bits.2 afterInit [0xFF, 0x00, 0x81] (by decide)⟩

/-- C16, the claim as stated fails: the product of the three divisor
constants wraps in the unsigned arithmetic of the build-time check.  With 64
bits and the constants 4000000, 274177, 67280421310721, 1 the product is
`2 ^ 64 + 1`, which wraps to 1: the check leaves 255, while the raw quotient is
0 and the claim gives 1.  With 32 bits the same happens for 641 and 6700417,
whose product is `2 ^ 32 + 1`. -/
theorem POR_DELAY_wraps :
    274177 * 67280421310721 * 1 ≠ 0 ∧ 67280421310721 < 2 ^ 64 ∧
    POR_DELAY_of 64 4000000 274177 67280421310721 1 = some 255 ∧
    specPOR_DELAY 4000000 274177 67280421310721 1 = 1 ∧
    641 * 6700417 * 1 ≠ 0 ∧ 6700417 < 2 ^ 32 ∧
    POR_DELAY_of 32 4000000 641 6700417 1 = some 255 ∧
    specPOR_DELAY 4000000 641 6700417 1 = 1 := by
  decide

/-- C16, amended: in unsigned arithmetic of `w ≥ 32` bits, for all values of
the four configuration constants that fit in `w` bits and whose divisor
`TIMER0_ASSERTS_IN_ONE_SECOND * TIMER0_COUNTS_UNTIL_ASSERT * TIMER0_PRESCALE`,
reduced modulo `2 ^ w`, is not 0, the `POR_DELAY` left by the build-time check
is the quotient `FSYS / 4 / divisor` with that reduced divisor when it lies in
1..255, 255 when it is 256 or more and 1 when it is 0, hence always lies in
1..255; when the product of the three constants is below `2 ^ w` this is the
raw quotient clamped as the specification says; for the constants of the
source it is 61. -/
theorem POR_DELAY_clamped (w fsys asserts counts prescale : Nat) (hw : 32 ≤ w)
    (_hf : fsys < 2 ^ w) (_ha : asserts < 2 ^ w) (_hc : counts < 2 ^ w)
    (_hp : prescale < 2 ^ w) (hd : asserts * counts * prescale % 2 ^ w ≠ 0) :
    (∃ v, POR_DELAY_of w fsys asserts counts prescale = some v ∧
      (1 ≤ fsys / 4 / (asserts * counts * prescale % 2 ^ w) ∧
        fsys / 4 / (asserts * counts * prescale % 2 ^ w) ≤ 255 →
          v = fsys / 4 / (asserts * counts * prescale % 2 ^ w)) ∧
      (256 ≤ fsys / 4 / (asserts * counts * prescale % 2 ^ w) → v = 255) ∧
      (fsys / 4 / (asserts * counts * prescale % 2 ^ w) < 1 → v = 1) ∧
      1 ≤ v ∧ v ≤ 255 ∧
      (asserts * counts * prescale < 2 ^ w →
        v = specPOR_DELAY fsys asserts counts prescale)) ∧
    POR_DELAY_of w FSYS TIMER0_ASSERTS_IN_ONE_SECOND TIMER0_COUNTS_UNTIL_ASSERT
      TIMER0_PRESCALE = some 61 ∧
    POR_DELAY = 61 := by
  have hdiv : POR_divisor w asserts counts prescale = asserts * counts * prescale % 2 ^ w :=
    POR_divisor_eq w asserts counts prescale
  have hne : POR_divisor w asserts counts prescale ≠ 0 := by rw [hdiv]; exact hd
  refine ⟨⟨_, if_neg hne, ?_⟩, POR_DELAY_of_reference w hw, by decide⟩
  rw [hdiv]
  refine ⟨?_, ?_, ?_, ?_, ?_, ?_⟩
  · intro h
    unfold POR_DELAY_check
    split_ifs <;> omega
  · intro h
    unfold POR_DELAY_check
    split_ifs <;> omega
  · intro h
    unfold POR_DELAY_check
    split_ifs <;> omega
  · unfold POR_DELAY_check
    split_ifs <;> omega
  · unfold POR_DELAY_check
    split_ifs <;> omega
  · intro h
    rw [Nat.mod_eq_of_lt h]
    unfold POR_DELAY_check specPOR_DELAY
    split_ifs <;> omega

theorem POR_DELAY_clamped_witness :
    32 ≤ 32 ∧ 4000000 < 2 ^ 32 ∧ 2000000 < 2 ^ 32 ∧ 1 < 2 ^ 32 ∧
    2000000 * 1 * 1 % 2 ^ 32 ≠ 0 ∧ POR_DELAY_of 32 4000000 2000000 1 1 = some 1 := by
  refine ⟨by decide, by decide, by decide, by decide, by decide, ?_⟩
  obtain ⟨⟨v, hv, -, -, h1, -, -, -⟩, -, -⟩ :=
    POR_DELAY_clamped 32 4000000 2000000 1 1 (by decide) (by decide) (by decide) (by decide)
      (by decide) (by decide)
  rw [hv, h1 (by decide)]

/-- C17: whatever the prior state, whenever `PIC_Init` returns it returns
with `gTRISIO = TRISIO = 0b11111111` and the `GPIO` latch 0; and it returns
exactly for the timer samples in which the wait loop observes at least
`POR_DELAY` toggles of bit 7. -/
theorem PIC_Init_port :
    (∀ (s : MCU) (t0 : Nat) (samples : List (Nat × Nat)) (t : MCU),
      PIC_Init t0 samples s = some t →
        t.gTRISIO = 0b11111111 ∧ t.TRISIO = 0b11111111 ∧ t.GPIO = 0) ∧
    (∀ (s : MCU) (t0 : Nat) (samples : List (Nat × Nat)),
      (∃ t, PIC_Init t0 samples s = some t) ↔ POR_DELAY ≤ waitToggles t0 samples) := by
  constructor
  · intro s t0 samples t h
    unfold PIC_Init at h
    simp only at h
    split at h
    · cases h
    · simp only [Option.some.injEq] at h
      subst h
      exact ⟨rfl, rfl, rfl⟩
  · intro s t0 samples
    have h := POR_wait_isSome samples
      { s with INTCON := 0, OPTION_REG := 0b11010101, gTMR0_MSB := t0, gPause := POR_DELAY }
      (by simp only [POR_DELAY_eq]; decide)
    simp only at h
    rw [← h]
    unfold PIC_Init
    simp only
    constructor
    · rintro ⟨t, ht⟩
      split at ht
      · cases ht
      · rename_i u hu
        exact ⟨u, hu⟩
    · rintro ⟨u, hu⟩
      rw [hu]
      exact ⟨_, rfl⟩

set_option maxRecDepth 100000 in
theorem PIC_Init_port_witness :
    PIC_Init 0x80 (squareWave 62).tail atReset = some afterInit ∧
    afterInit.gTRISIO = 0b11111111 ∧ afterInit.TRISIO = 0b11111111 ∧ afterInit.GPIO = 0 :=
  ⟨by decide, PIC_Init_port.1 atReset 0x80 (squareWave 62).tail afterInit (by decide)⟩

set_option maxRecDepth 100000 in
/-- C12, the claim as stated fails: from the state `PIC_Init` leaves, with
the fixed mask `0b11111111` and `State = 8`, the writes of calls 9 to 16 differ
from those of calls 1 to 8 (call 1 writes `0x00` and `0x20` to `GPIO`, call 9
writes `0x10` and `0x30`). -/
theorem periodic_writes_fail :
    1 ≤ ({ afterInit with gLEDs := 0xFF } : MCU).State ∧
    ({ afterInit with gLEDs := 0xFF } : MCU).State ≤ 8 ∧
    (callsWrites 8 { afterInit with gLEDs := 0xFF })[1]? = some (Loc.GPIO, 0x00) ∧
    (callsWrites 8 (LED_refresh^[8] { afterInit with gLEDs := 0xFF }))[1]? =
      some (Loc.GPIO, 0x10) ∧
    callsWrites 8 (LED_refresh^[8] { afterInit with gLEDs := 0xFF }) ≠
      callsWrites 8 { afterInit with gLEDs := 0xFF } := by
  decide

/-- C12, amended: for every fixed mask and every starting state with
`State` in 1..8 and 8-bit `gTRISIO` and `GPIO`, the writes of calls 9 to 16 go
to the same registers in the same order as those of calls 1 to 8 and every
value written to `TRISIO` is the same, write for write; and from the second
cycle on the values written to `GPIO` repeat as well: calls 17 to 24 write,
write for write, what calls 9 to 16 wrote. -/
theorem cycle_writes_repeat (s : MCU) (h1 : 1 ≤ s.State) (h8 : s.State ≤ 8)
    (hT : s.gTRISIO < 256) (hG : s.GPIO < 256) :
    (callsWrites 8 (LED_refresh^[8] s)).map hideLatch = (callsWrites 8 s).map hideLatch ∧
    callsWrites 8 (LED_refresh^[16] s) = callsWrites 8 (LED_refresh^[8] s) := by
  refine ⟨callsWrites_hidden_eq 8 _ _ (SameDrive_after_cycle s h1 h8 hT), ?_⟩
  have h16 : LED_refresh^[16] s = LED_refresh^[8] (LED_refresh^[8] s) :=
    Function.iterate_add_apply LED_refresh 8 8 s
  have eS : (LED_refresh^[8] s).State = s.State :=
    (iterate_State 8 s).trans (nextState_iterate_eight _ h1 h8)
  have hT8 : MCU.gTRISIO (LED_refresh^[8] s) < 256 := iterate_shadow_lt 8 s hT
  rw [h16]
  exact callsWrites_eq_of_SameLatch 8 _ _
    (SameDrive_after_cycle _ (by rw [eS]; exact h1) (by rw [eS]; exact h8) hT8)
    (SameLatch_steady s h1 h8 hG)

set_option maxRecDepth 100000 in
theorem cycle_writes_repeat_witness :
    1 ≤ ({ afterInit with gLEDs := 0xFF } : MCU).State ∧
    callsWrites 8 (LED_refresh^[16] { afterInit with gLEDs := 0xFF }) =
      callsWrites 8 (LED_refresh^[8] { afterInit with gLEDs := 0xFF }) :=
  ⟨by decide, (cycle_writes_repeat { afterInit with gLEDs := 0xFF } (by decide) (by decide)
    (by decide) (by decide)).2⟩

/-- C20: for every 8-bit mask with at most one bit set and every starting
state with `State` in 1..8 and an 8-bit `gTRISIO`, the values written to
`TRISIO` and to `GPIO` by calls 9 to 16 equal, write for write, those written
by calls 1 to 8, whatever the `GPIO` latch holds at the start. -/
theorem single_bit_cycle_repeats (s : MCU) (hm : atMostOneBit s.gLEDs)
    (h1 : 1 ≤ s.State) (h8 : s.State ≤ 8) (hT : s.gTRISIO < 256) :
    callsWrites 8 (LED_refresh^[8] s) = callsWrites 8 s := by
  obtain ⟨k, hk⟩ := atMostOneBit_only _ hm
  apply callsWrites_eq_of_SameLatchOutside k 8 _ _ (SameDrive_after_cycle s h1 h8 hT)
  · rw [iterate_gLEDs]
    exact hk
  · exact iterate_SameLatchOutside k 8 s hk

theorem single_bit_cycle_repeats_witness :
    atMostOneBit ({ afterInit with gLEDs := 0x10, State := 3, GPIO := 0x36 } : MCU).gLEDs ∧
    callsWrites 8 (LED_refresh^[8] { afterInit with gLEDs := 0x10, State := 3, GPIO := 0x36 }) =
      callsWrites 8 { afterInit with gLEDs := 0x10, State := 3, GPIO := 0x36 } :=
  ⟨Or.inr ⟨4, by decide, rfl⟩,
    single_bit_cycle_repeats { afterInit with gLEDs := 0x10, State := 3, GPIO := 0x36 }
      (Or.inr ⟨4, by decide, rfl⟩) (by decide) (by decide) (by decide)⟩

end PairOfDice
